import Mathlib

/-!
Verification development for the core of an offline Monte Carlo ray tracer
written in Rust.  The `f64` values of the source are modelled as real
numbers (`ℝ`); interval bounds, which the program also instantiates with
`f64::INFINITY`, are modelled by `EReal` (the reals extended with `±∞`,
exactly the non-NaN `f64` value space).  Pseudo-random draws are made
explicit inputs.  Each Rust function is transcribed into a Lean definition
of the same name (snake case turned into camel case), and the theorems at
the end of the file settle the specification claims against those
definitions.
-/

namespace RayTracer

noncomputable section

/-- Three-component real vector, `Vec3` of `src/vector.rs`.  It doubles as a
point (`Point3`) and as an RGB colour (`Color`), as in the source. -/
structure Vec3 where
  x : ℝ
  y : ℝ
  z : ℝ

/-- Alias `Point3` of `src/vector.rs`. -/
abbrev Point3 := Vec3

/-- Alias `Color` of `src/vectors/color.rs`. -/
abbrev Color := Vec3

/-- Component-wise addition (`impl Add for Vec3`). -/
instance : Add Vec3 := ⟨fun a b => ⟨a.x + b.x, a.y + b.y, a.z + b.z⟩⟩

/-- Component-wise subtraction (`impl Sub for Vec3`). -/
instance : Sub Vec3 := ⟨fun a b => ⟨a.x - b.x, a.y - b.y, a.z - b.z⟩⟩

/-- Negation (`impl Neg for Vec3`). -/
instance : Neg Vec3 := ⟨fun a => ⟨-a.x, -a.y, -a.z⟩⟩

/-- Component-wise multiplication (`impl Mul for Vec3`, used for colour
attenuation). -/
instance : Mul Vec3 := ⟨fun a b => ⟨a.x * b.x, a.y * b.y, a.z * b.z⟩⟩

/-- Scalar multiplication (`impl Mul<Vec3> for f64`). -/
instance : SMul ℝ Vec3 := ⟨fun t v => ⟨t * v.x, t * v.y, t * v.z⟩⟩

/-- Division of a vector by a scalar (`impl Div<f64> for Vec3`). -/
instance : HDiv Vec3 ℝ Vec3 := ⟨fun v t => ⟨v.x / t, v.y / t, v.z / t⟩⟩

/-- The zero vector, `Vec3::new()` of the current sources (all components
zero). -/
def Vec3.zero : Vec3 := ⟨0, 0, 0⟩

/-- Dot product, `dot` / `Vec3::dot` of `src/vector.rs`. -/
def dot (a b : Vec3) : ℝ := a.x * b.x + a.y * b.y + a.z * b.z

/-- Squared length; the source names it `Vec3::magnitude` (despite the name
it returns `x*x + y*y + z*z`, not the length). -/
def Vec3.magnitude (v : Vec3) : ℝ := v.x * v.x + v.y * v.y + v.z * v.z

/-- Length, `Vec3::length` (`magnitude().sqrt()`). -/
def Vec3.length (v : Vec3) : ℝ := Real.sqrt v.magnitude

/-- Normalisation, `Vec3::normalize` (components divided by the length;
undefined—division by zero—for the zero vector, as the spec warns). -/
def Vec3.normalize (v : Vec3) : Vec3 :=
  ⟨v.x / v.length, v.y / v.length, v.z / v.length⟩

/-- Mirror reflection, `Vec3::reflect`: `v - 2·dot(v,n)·n`. -/
def reflectV (v n : Vec3) : Vec3 := v - (2 * dot v n) • n

/-- Near-zero test, `Vec3::approx_zero` (every component of magnitude below
`1e-8`). -/
def Vec3.approxZero (v : Vec3) : Prop :=
  |v.x| < 1e-8 ∧ |v.y| < 1e-8 ∧ |v.z| < 1e-8

instance (v : Vec3) : Decidable v.approxZero :=
  show Decidable (_ ∧ _ ∧ _) from inferInstance

/-- Snell refraction, called as `Vec3::refract` by
`src/materials/dielectric.rs`.  Modelled from the spec: the function's body
is not among the repository's files, and the spec prescribes "refract using
Snell's law decomposition into perpendicular/parallel components", which is
the standard decomposition below. -/
def refractV (uv n : Vec3) (etaiOverEtat : ℝ) : Vec3 :=
  let cosTheta : ℝ := min (dot (-uv) n) 1
  let rOutPerp : Vec3 := etaiOverEtat • (uv + cosTheta • n)
  let rOutParallel : Vec3 := (-Real.sqrt |1 - rOutPerp.magnitude|) • n
  rOutPerp + rOutParallel

/-- Ray, `Ray` of `src/vectors/ray.rs`: origin, direction and a motion-blur
sample time. -/
structure Ray where
  origin : Point3
  direction : Vec3
  time : ℝ

/-- Point along a ray, `Ray::at`: `origin + t·direction`. -/
def Ray.at (r : Ray) (t : ℝ) : Point3 := r.origin + t • r.direction

/-- Interval, `Interval` of `src/interval.rs` (and of the `math::interval`
module the newer files import, whose file is not in the repository snapshot;
the spec describes the same `min`/`max`, `contains`, `surrounds` and the
`EMPTY`/`UNIVERSE` constants).  The program stores `f64::INFINITY` in these
fields, so they are modelled as `EReal`. -/
structure Interval where
  min : EReal
  max : EReal

/-- Inclusive containment, `Interval::contains`. -/
def Interval.containsP (i : Interval) (x : ℝ) : Prop :=
  i.min ≤ (x : EReal) ∧ (x : EReal) ≤ i.max

/-- Strict containment, `Interval::surrounds` (`min < x && x < max`). -/
def Interval.surrounds (i : Interval) (x : ℝ) : Prop :=
  i.min < (x : EReal) ∧ (x : EReal) < i.max

instance (i : Interval) (x : ℝ) : Decidable (i.surrounds x) :=
  show Decidable (_ ∧ _) from inferInstance

/-- The `EMPTY` interval constant. -/
def Interval.emptyI : Interval := ⟨⊤, ⊥⟩

/-- The `UNIVERSE` interval constant. -/
def Interval.universe : Interval := ⟨⊥, ⊤⟩

/-- Clamping of a channel value to an interval.  Modelled from the spec:
`Interval::clamp` lives in the `math::interval` module, whose file is not in
the repository snapshot; the spec says "clamp each channel to `[0, 0.999]`",
so `clamp` returns `min` below the interval, `max` above it, and the value
itself inside it. -/
def Interval.clamp (i : Interval) (x : ℝ) : ℝ :=
  if (x : EReal) < i.min then i.min.toReal
  else if i.max < (x : EReal) then i.max.toReal
  else x

/-- Closed tagged union of the three material behaviours (the source uses
trait objects over `Lambertian`, `Metal`, `Dielectric`; the spec's design
notes prescribe exactly this closed union for a reimplementation). -/
inductive Material where
  | lambertian (albedo : Color)
  | metal (albedo : Color) (fuzz : ℝ)
  | dielectric (indexOfRefraction : ℝ)

/-- Intersection result, `HitRecord` of `src/traceable.rs`, plus the
`material` field that `Sphere::hit` sets and the camera reads (the snapshot
of `traceable.rs` predates that field; its accessors `material()` /
`set_material()` are used throughout the newer sources). -/
structure HitRecord where
  point : Point3
  normal : Vec3
  parameter : ℝ
  rayFacesOutside : Bool
  material : Material

/-- Default record, `HitRecord::new` (zero point/normal/parameter, facing
outside; the default material is a default Lambertian, mirroring
`Sphere::new`'s default material). -/
def HitRecord.new : HitRecord :=
  ⟨Vec3.zero, Vec3.zero, 0, true, Material.lambertian Vec3.zero⟩

/-- Normal orientation setter, `HitRecord::set_normal_face`
(`src/traceable.rs` lines 79-87).  The source's first line
`outward_normal.normalize();` computes a normalised copy and discards it
(no effect), so it has no counterpart here. -/
def setNormalFace (rec : HitRecord) (ray : Ray) (outwardNormal : Vec3) : HitRecord :=
  let ff : Bool := if dot ray.direction outwardNormal < 0 then true else false
  { rec with
    rayFacesOutside := ff
    normal := if ff then outwardNormal else -outwardNormal }

/-- Sphere, `Sphere` of `src/drawable/sphere.rs`: static centre (or start
centre), radius, material, motion flag and the end-minus-start lerp factor
stored by `Sphere::new_in_motion`. -/
structure Sphere where
  center : Point3
  radius : ℝ
  material : Material
  inMotion : Bool
  motionBlurLerpFactor : Point3

/-- Time-dependent centre, `Sphere::center(time)` (lines 70-76): linear
interpolation when in motion, the stored centre otherwise. -/
def Sphere.centerAt (s : Sphere) (time : ℝ) : Point3 :=
  if s.inMotion then s.center + time • s.motionBlurLerpFactor else s.center

/-- The centre used by `Sphere::hit` (lines 96-99): evaluated at the ray's
time when in motion, the stored centre otherwise. -/
def hitCenter (s : Sphere) (ray : Ray) : Point3 :=
  if s.inMotion then s.centerAt ray.time else s.center

/-- Quadratic coefficient `a = D·D` of `Sphere::hit` (the source writes
`ray.direction().magnitude()`, the squared length). -/
def sphereA (ray : Ray) : ℝ := ray.direction.magnitude

/-- Quadratic coefficient `half_b = (O−C)·D` of `Sphere::hit`. -/
def sphereHalfB (s : Sphere) (ray : Ray) : ℝ :=
  dot (ray.origin - hitCenter s ray) ray.direction

/-- Quadratic coefficient `c = |O−C|² − r²` of `Sphere::hit`. -/
def sphereC (s : Sphere) (ray : Ray) : ℝ :=
  dot (ray.origin - hitCenter s ray) (ray.origin - hitCenter s ray) -
    s.radius * s.radius

/-- Discriminant `half_b² − a·c` of `Sphere::hit`. -/
def sphereDisc (s : Sphere) (ray : Ray) : ℝ :=
  sphereHalfB s ray * sphereHalfB s ray - sphereA ray * sphereC s ray

/-- Smaller candidate root `(−half_b − √disc)/a` of `Sphere::hit`. -/
def sphereRoot1 (s : Sphere) (ray : Ray) : ℝ :=
  (-sphereHalfB s ray - Real.sqrt (sphereDisc s ray)) / sphereA ray

/-- Larger candidate root `(−half_b + √disc)/a` of `Sphere::hit`. -/
def sphereRoot2 (s : Sphere) (ray : Ray) : ℝ :=
  (-sphereHalfB s ray + Real.sqrt (sphereDisc s ray)) / sphereA ray

/-- Record population of `Sphere::hit` (lines 120-124): sets the parameter,
the point `ray.at(t)`, the outward normal `(point − self.center)/radius`
(note: the source uses the STATIC field `self.center` here, not the
time-evaluated centre used for the quadratic), orients it via
`set_normal_face`, and attaches the sphere's material.  Every field of the
incoming record is overwritten. -/
def spherePopulate (s : Sphere) (ray : Ray) (root : ℝ) (rec : HitRecord) : HitRecord :=
  let rec1 := { rec with parameter := root }
  let rec2 := { rec1 with point := ray.at rec1.parameter }
  let outwardNormal : Vec3 := (rec2.point - s.center) / s.radius
  let rec3 := setNormalFace rec2 ray outwardNormal
  { rec3 with material := s.material }

/-- Ray-sphere intersection, `Sphere::hit` (`src/drawable/sphere.rs` lines
95-126).  Returns the `bool` result paired with the (possibly mutated)
record. -/
def sphereHit (s : Sphere) (ray : Ray) (rayParameter : Interval) (rec : HitRecord) :
    Bool × HitRecord :=
  if sphereDisc s ray < 0 then (false, rec)
  else if rayParameter.surrounds (sphereRoot1 s ray) then
    (true, spherePopulate s ray (sphereRoot1 s ray) rec)
  else if rayParameter.surrounds (sphereRoot2 s ray) then
    (true, spherePopulate s ray (sphereRoot2 s ray) rec)
  else (false, rec)

/-- The root `Sphere::hit` would accept, if any: the smaller candidate when
it is strictly inside the interval, else the larger candidate when strictly
inside, else none (and none when the discriminant is negative). -/
def sphereRootIn (s : Sphere) (ray : Ray) (i : Interval) : Option ℝ :=
  if sphereDisc s ray < 0 then none
  else if i.surrounds (sphereRoot1 s ray) then some (sphereRoot1 s ray)
  else if i.surrounds (sphereRoot2 s ray) then some (sphereRoot2 s ray)
  else none

/-- Loop body of `Traceables::hit` (`src/traceable.rs` lines 122-140):
iterates the members, testing each against `[min, closest]`, threading the
scratch record `temp`, narrowing `closest` to each accepted hit's parameter
and copying the scratch record into the output record. -/
def hitLoop (ray : Ray) (imin : EReal) :
    List Sphere → HitRecord → EReal → Bool → HitRecord → Bool × HitRecord
  | [], _, _, hasHit, rec => (hasHit, rec)
  | s :: rest, temp, closest, hasHit, rec =>
    let out := sphereHit s ray ⟨imin, closest⟩ temp
    if out.1 then hitLoop ray imin rest out.2 ((out.2.parameter : ℝ) : EReal) true out.2
    else hitLoop ray imin rest out.2 closest hasHit rec

/-- Scene-aggregate intersection, `Traceables::hit` (`impl Traceable for
Traceables`): fresh scratch record, `closest` initialised to the interval's
max, then the member loop.  The only primitive implementing `Traceable` is
the sphere, so the member list is a list of spheres. -/
def traceablesHit (objects : List Sphere) (ray : Ray) (rayParameter : Interval)
    (rec : HitRecord) : Bool × HitRecord :=
  hitLoop ray rayParameter.min objects HitRecord.new rayParameter.max false rec

/-- Parameters the members would report on an interval: the accepted roots
`sphereRootIn` collected over the member list (a claim-side definition used
to state the aggregate's nearest-hit property). -/
def hitParams (objects : List Sphere) (ray : Ray) (i : Interval) : List ℝ :=
  objects.filterMap (fun s => sphereRootIn s ray i)

/-- One bounce's worth of pseudo-random input: the unit-sphere vector the
material generators draw (`Vec3::random_unit_sphere_vector`) and the
uniform `[0,1)` draw (`random_number`) the dielectric compares against the
Schlick reflectance.  The source reads a thread-local generator; the model
passes the draws in. -/
structure RandSample where
  unitVec : Vec3
  uniform : ℝ

/-- Schlick approximation, `reflectance` of `src/materials/dielectric.rs`
(lines 72-76): `r0 + (1−r0)·(1−cos_theta)^5` with
`r0 = ((1−ratio)/(1+ratio))²`. -/
def reflectance (cosTheta refractionRatio : ℝ) : ℝ :=
  let r0 := (1 - refractionRatio) / (1 + refractionRatio)
  let r0sq := r0 * r0
  r0sq + (1 - r0sq) * (1 - cosTheta) ^ (5 : ℕ)

/-- Material dispatch of `scatter`, matching the three implementations:
`Lambertian::scatter` (`src/materials/lambert.rs`), `Metal::scatter`
(`src/materials/metal.rs` lines 28-45) and `Dielectric::scatter`
(`src/materials/dielectric.rs` lines 28-55).  Returns the `bool` result with
the attenuation and scattered-ray out-values.  The Lambertian and Metal
implementations build the scattered ray without a time argument (their files
still use the two-argument `Ray` constructor), so their scattered time is 0;
the Dielectric passes `ray_in.time()` through. -/
def scatter (m : Material) (rayIn : Ray) (rec : HitRecord) (sample : RandSample) :
    Bool × Color × Ray :=
  match m with
  | .lambertian albedo =>
    let d0 := rec.normal + sample.unitVec
    let scatterDirection := if d0.approxZero then rec.normal else d0
    (true, albedo, ⟨rec.point, scatterDirection, 0⟩)
  | .metal albedo fuzz =>
    let reflectedVector := reflectV rayIn.direction.normalize rec.normal
    (true, albedo, ⟨rec.point, reflectedVector + fuzz • sample.unitVec, 0⟩)
  | .dielectric ior =>
    let refractionRatio := if rec.rayFacesOutside then 1 / ior else ior
    let rayInUnitDirection := rayIn.direction.normalize
    let cosTheta := min (dot (-rayInUnitDirection) rec.normal) 1
    let sinTheta := Real.sqrt (1 - cosTheta * cosTheta)
    let notRefractable := refractionRatio * sinTheta > 1
    let direction :=
      if notRefractable ∨ reflectance cosTheta refractionRatio > sample.uniform then
        reflectV rayInUnitDirection rec.normal
      else refractV rayInUnitDirection rec.normal refractionRatio
    (true, ⟨1, 1, 1⟩, ⟨rec.point, direction, rayIn.time⟩)

/-- The parameter interval the recursive colour estimator passes to the
scene test: `Interval::new(0.1, f64::INFINITY)`
(`src/perspective_camera/camera.rs` line 117 and `src/camera/camera.rs`
line 102). -/
def cameraInterval : Interval := ⟨((0.1 : ℝ) : EReal), ⊤⟩

/-- Sky background of `Camera::get_ray_color`: vertical gradient
`lerp(white, lightblue, 0.5·(unit_direction.y + 1))`. -/
def skyColor (ray : Ray) : Color :=
  let unitDirection := ray.direction.normalize
  let blendFactor := 0.5 * (unitDirection.y + 1)
  (1 - blendFactor) • (⟨1, 1, 1⟩ : Color) + blendFactor • (⟨0.5, 0.7, 1⟩ : Color)

/-- Recursive colour estimator, `Camera::get_ray_color`
(`src/perspective_camera/camera.rs` lines 111-136): at depth 0 return
black; otherwise test the ray against the scene on `cameraInterval`; on a
hit ask the material to scatter, recursing at `depth − 1` on the scattered
ray and attenuating, or return black when the material does not scatter; on
a miss return the sky gradient.  `rng k` supplies the random draws of the
k-th bounce. -/
def getRayColor (world : List Sphere) : ℕ → Ray → (ℕ → RandSample) → Color
  | 0, _, _ => Vec3.zero
  | depth + 1, ray, rng =>
    let out := traceablesHit world ray cameraInterval HitRecord.new
    if out.1 then
      let sc := scatter out.2.material ray out.2 (rng 0)
      if sc.1 then sc.2.1 * getRayColor world depth sc.2.2 (fun n => rng (n + 1))
      else Vec3.zero
    else skyColor ray

/-- Number of scatter events (successful material scatters followed by a
recursive call) the estimator performs along the sampled path: the same
recursion as `getRayColor`, counting instead of accumulating colour. -/
def scatterEvents (world : List Sphere) : ℕ → Ray → (ℕ → RandSample) → ℕ
  | 0, _, _ => 0
  | depth + 1, ray, rng =>
    let out := traceablesHit world ray cameraInterval HitRecord.new
    if out.1 then
      let sc := scatter out.2.material ray out.2 (rng 0)
      if sc.1 then 1 + scatterEvents world depth sc.2.2 (fun n => rng (n + 1))
      else 0
    else 0

/-- Gamma correction, `linear_to_gamma` of `src/vectors/color.rs`: the
square root of the linear component. -/
def linearToGamma (linearComponent : ℝ) : ℝ := Real.sqrt linearComponent

/-- Rust's saturating float-to-`i32` cast (`as i32`): truncation toward
zero, clamped to the `i32` range. -/
def f64AsI32 (v : ℝ) : ℤ :=
  max (-(2 ^ 31)) (min (2 ^ 31 - 1) (if v < 0 then -⌊-v⌋ else ⌊v⌋))

/-- The clamp interval `Interval::new(0.000, 0.999)` of `write_color`. -/
def intensity : Interval := ⟨((0 : ℝ) : EReal), ((0.999 : ℝ) : EReal)⟩

/-- Integer triple emitted by `write_color` (`src/vectors/color.rs` lines
7-43): each channel divided by the sample count, gamma corrected, clamped
to `[0, 0.999]`, scaled by 256 and cast to an integer. -/
def writeColorInts (pixelColor : Color) (pixelSamples : ℕ) : ℤ × ℤ × ℤ :=
  let scale : ℝ := 1 / (pixelSamples : ℝ)
  let r := linearToGamma (pixelColor.x * scale)
  let g := linearToGamma (pixelColor.y * scale)
  let b := linearToGamma (pixelColor.z * scale)
  (f64AsI32 (256 * intensity.clamp r),
   f64AsI32 (256 * intensity.clamp g),
   f64AsI32 (256 * intensity.clamp b))

/-- The `"<r> <g> <b>"` line `write_color` formats for one pixel. -/
def writeColorLine (pixelColor : Color) (pixelSamples : ℕ) : String :=
  let t := writeColorInts pixelColor pixelSamples
  toString t.1 ++ " " ++ toString t.2.1 ++ " " ++ toString t.2.2

/-- The rendered PPM file as its list of lines, `Camera::render`
(`src/perspective_camera/camera.rs` lines 216-271): the header lines `P3`,
`"<width> <height>"` and `255`, then one `write_color` line per pixel,
scanline by scanline (row-major, top to bottom, left to right —  the
parallel map collects the scanlines in index order before writing).
`pixelColor i j` stands for the accumulated sum of the per-sample estimator
outputs for the pixel in column `i` of scanline `j`, which the claim
quantifies over. -/
def renderLines (imageWidth imageHeight pixelSamples : ℕ)
    (pixelColor : ℕ → ℕ → Color) : List String :=
  ["P3", toString imageWidth ++ " " ++ toString imageHeight, "255"] ++
    (List.range imageHeight).flatMap (fun j =>
      (List.range imageWidth).map (fun i => writeColorLine (pixelColor i j) pixelSamples))

/-! ### Component lemmas and general helper lemmas -/

@[simp] theorem Vec3.add_x (a b : Vec3) : (a + b).x = a.x + b.x := rfl

@[simp] theorem Vec3.add_y (a b : Vec3) : (a + b).y = a.y + b.y := rfl

@[simp] theorem Vec3.add_z (a b : Vec3) : (a + b).z = a.z + b.z := rfl

@[simp] theorem Vec3.sub_x (a b : Vec3) : (a - b).x = a.x - b.x := rfl

@[simp] theorem Vec3.sub_y (a b : Vec3) : (a - b).y = a.y - b.y := rfl

@[simp] theorem Vec3.sub_z (a b : Vec3) : (a - b).z = a.z - b.z := rfl

@[simp] theorem Vec3.neg_x (a : Vec3) : (-a).x = -a.x := rfl

@[simp] theorem Vec3.neg_y (a : Vec3) : (-a).y = -a.y := rfl

@[simp] theorem Vec3.neg_z (a : Vec3) : (-a).z = -a.z := rfl

@[simp] theorem Vec3.mul_x (a b : Vec3) : (a * b).x = a.x * b.x := rfl

@[simp] theorem Vec3.mul_y (a b : Vec3) : (a * b).y = a.y * b.y := rfl

@[simp] theorem Vec3.mul_z (a b : Vec3) : (a * b).z = a.z * b.z := rfl

@[simp] theorem Vec3.smul_x (t : ℝ) (a : Vec3) : (t • a).x = t * a.x := rfl

@[simp] theorem Vec3.smul_y (t : ℝ) (a : Vec3) : (t • a).y = t * a.y := rfl

@[simp] theorem Vec3.smul_z (t : ℝ) (a : Vec3) : (t • a).z = t * a.z := rfl

@[simp] theorem Vec3.div_x (a : Vec3) (t : ℝ) : (a / t).x = a.x / t := rfl

@[simp] theorem Vec3.div_y (a : Vec3) (t : ℝ) : (a / t).y = a.y / t := rfl

@[simp] theorem Vec3.div_z (a : Vec3) (t : ℝ) : (a / t).z = a.z / t := rfl

@[simp] theorem Vec3.mk_add_mk (a b c d e f : ℝ) :
    (⟨a, b, c⟩ + ⟨d, e, f⟩ : Vec3) = ⟨a + d, b + e, c + f⟩ := rfl

@[simp] theorem Vec3.mk_sub_mk (a b c d e f : ℝ) :
    (⟨a, b, c⟩ - ⟨d, e, f⟩ : Vec3) = ⟨a - d, b - e, c - f⟩ := rfl

@[simp] theorem Vec3.neg_mk (a b c : ℝ) : (-(⟨a, b, c⟩ : Vec3)) = ⟨-a, -b, -c⟩ := rfl

@[simp] theorem Vec3.mk_mul_mk (a b c d e f : ℝ) :
    (⟨a, b, c⟩ * ⟨d, e, f⟩ : Vec3) = ⟨a * d, b * e, c * f⟩ := rfl

@[simp] theorem Vec3.smul_mk (t a b c : ℝ) :
    (t • (⟨a, b, c⟩ : Vec3)) = ⟨t * a, t * b, t * c⟩ := rfl

@[simp] theorem Vec3.mk_div (a b c t : ℝ) :
    ((⟨a, b, c⟩ : Vec3) / t) = ⟨a / t, b / t, c / t⟩ := rfl

@[simp] theorem dot_mk_mk (a b c d e f : ℝ) :
    dot ⟨a, b, c⟩ ⟨d, e, f⟩ = a * d + b * e + c * f := rfl

@[simp] theorem Vec3.magnitude_mk (a b c : ℝ) :
    Vec3.magnitude ⟨a, b, c⟩ = a * a + b * b + c * c := rfl

theorem dot_neg_left (a b : Vec3) : dot (-a) b = -dot a b := by
  simp only [dot, Vec3.neg_x, Vec3.neg_y, Vec3.neg_z]; ring

theorem dot_neg_right (a b : Vec3) : dot a (-b) = -dot a b := by
  simp only [dot, Vec3.neg_x, Vec3.neg_y, Vec3.neg_z]; ring

theorem Vec3.magnitude_nonneg (v : Vec3) : 0 ≤ v.magnitude :=
  add_nonneg (add_nonneg (mul_self_nonneg _) (mul_self_nonneg _)) (mul_self_nonneg _)

theorem Vec3.magnitude_pos (v : Vec3) (h : v ≠ Vec3.zero) : 0 < v.magnitude := by
  rcases (Vec3.magnitude_nonneg v).lt_or_eq with hlt | heq
  · exact hlt
  · exfalso
    apply h
    have h0 : v.x * v.x + v.y * v.y + v.z * v.z = 0 := by
      simpa [Vec3.magnitude] using heq.symm
    have hxx : v.x * v.x = 0 :=
      le_antisymm (by nlinarith [mul_self_nonneg v.y, mul_self_nonneg v.z])
        (mul_self_nonneg v.x)
    have hyy : v.y * v.y = 0 :=
      le_antisymm (by nlinarith [mul_self_nonneg v.x, mul_self_nonneg v.z])
        (mul_self_nonneg v.y)
    have hzz : v.z * v.z = 0 :=
      le_antisymm (by nlinarith [mul_self_nonneg v.x, mul_self_nonneg v.y])
        (mul_self_nonneg v.z)
    cases v with
    | mk x y z =>
      have hx := mul_self_eq_zero.mp hxx
      have hy := mul_self_eq_zero.mp hyy
      have hz := mul_self_eq_zero.mp hzz
      simp only at hx hy hz
      rw [Vec3.zero, hx, hy, hz]


theorem spherePopulate_parameter (s : Sphere) (ray : Ray) (root : ℝ) (rec : HitRecord) :
    (spherePopulate s ray root rec).parameter = root := rfl

theorem spherePopulate_point (s : Sphere) (ray : Ray) (root : ℝ) (rec : HitRecord) :
    (spherePopulate s ray root rec).point = ray.at root := rfl

theorem spherePopulate_material (s : Sphere) (ray : Ray) (root : ℝ) (rec : HitRecord) :
    (spherePopulate s ray root rec).material = s.material := rfl

theorem spherePopulate_indep (s : Sphere) (ray : Ray) (root : ℝ) (rec rec' : HitRecord) :
    spherePopulate s ray root rec = spherePopulate s ray root rec' := by
  cases rec; cases rec'; rfl

theorem sphereHit_none (s : Sphere) (ray : Ray) (i : Interval) (rec : HitRecord)
    (h : sphereRootIn s ray i = none) : sphereHit s ray i rec = (false, rec) := by
  simp only [sphereHit, sphereRootIn] at *
  split_ifs at h ⊢ <;> simp_all

theorem sphereHit_some (s : Sphere) (ray : Ray) (i : Interval) (rec : HitRecord) (t : ℝ)
    (h : sphereRootIn s ray i = some t) :
    sphereHit s ray i rec = (true, spherePopulate s ray t rec) := by
  simp only [sphereHit, sphereRootIn] at *
  split_ifs at h ⊢ <;> simp_all

theorem sphereHit_flag (s : Sphere) (ray : Ray) (i : Interval) (rec : HitRecord) :
    (sphereHit s ray i rec).1 = (sphereRootIn s ray i).isSome := by
  simp only [sphereHit, sphereRootIn]
  split_ifs <;> rfl

theorem hitLoop_false (ray : Ray) (imin : EReal) :
    ∀ (rest : List Sphere) (temp : HitRecord) (closest : EReal) (hasHit : Bool)
      (rec : HitRecord),
      (hitLoop ray imin rest temp closest hasHit rec).1 = false →
        hasHit = false ∧ (hitLoop ray imin rest temp closest hasHit rec).2 = rec := by
  intro rest
  induction rest with
  | nil => intro temp closest hasHit rec h; exact ⟨h, rfl⟩
  | cons s rest ih =>
    intro temp closest hasHit rec h
    simp only [hitLoop] at h ⊢
    by_cases hs : (sphereHit s ray ⟨imin, closest⟩ temp).1 = true
    · rw [if_pos hs] at h
      exact absurd (ih _ _ _ _ h).1 (by simp)
    · rw [if_neg hs] at h ⊢
      exact ⟨(ih _ _ _ _ h).1, (ih _ _ _ _ h).2⟩

/-! ### Claim theorems -/

/-- Claim C3: after `set_normal_face(ray, outward_normal)` with a unit
`outward_normal`, the stored `ray_faces_outside` flag equals
`dot(ray.direction, outward_normal) < 0`, the stored normal is
`outward_normal` when that flag is set and `−outward_normal` otherwise, and
consequently `dot(ray.direction, normal) ≤ 0`. -/
theorem set_normal_face_orientation (ray : Ray) (rec : HitRecord) (n : Vec3)
    (hunit : n.length = 1) :
    ((setNormalFace rec ray n).rayFacesOutside = true ↔ dot ray.direction n < 0) ∧
    (setNormalFace rec ray n).normal = (if dot ray.direction n < 0 then n else -n) ∧
    dot ray.direction (setNormalFace rec ray n).normal ≤ 0 := by
  by_cases h : dot ray.direction n < 0
  · refine ⟨by simp [setNormalFace, h], by simp [setNormalFace, h], ?_⟩
    simpa [setNormalFace, h] using h.le
  · refine ⟨by simp [setNormalFace, h], by simp [setNormalFace, h], ?_⟩
    have h' : 0 ≤ dot ray.direction n := not_lt.mp h
    simp only [setNormalFace, if_neg h]
    simpa [dot_neg_right] using neg_nonpos.mpr h'

/-- Claim C3 witness: the theorem applied to the unit normal `(0,0,1)` and
the ray with direction `(0,0,-1)`. -/
theorem set_normal_face_orientation_witness :
    (⟨0, 0, 1⟩ : Vec3).length = 1 ∧
    (((setNormalFace HitRecord.new ⟨Vec3.zero, ⟨0, 0, -1⟩, 0⟩
        ⟨0, 0, 1⟩).rayFacesOutside = true ↔
          dot (Ray.mk Vec3.zero ⟨0, 0, -1⟩ 0).direction ⟨0, 0, 1⟩ < 0) ∧
      (setNormalFace HitRecord.new ⟨Vec3.zero, ⟨0, 0, -1⟩, 0⟩ ⟨0, 0, 1⟩).normal =
        (if dot (Ray.mk Vec3.zero ⟨0, 0, -1⟩ 0).direction ⟨0, 0, 1⟩ < 0
          then (⟨0, 0, 1⟩ : Vec3) else -⟨0, 0, 1⟩) ∧
      dot (Ray.mk Vec3.zero ⟨0, 0, -1⟩ 0).direction
        (setNormalFace HitRecord.new ⟨Vec3.zero, ⟨0, 0, -1⟩, 0⟩ ⟨0, 0, 1⟩).normal ≤ 0) := by
  have hunit : (⟨0, 0, 1⟩ : Vec3).length = 1 := by
    simp [Vec3.length, Vec3.magnitude]
  exact ⟨hunit,
    set_normal_face_orientation ⟨Vec3.zero, ⟨0, 0, -1⟩, 0⟩ HitRecord.new ⟨0, 0, 1⟩ hunit⟩

/-- Claim C4, amended: `Metal::scatter` always reports a scatter.  It
returns `true` unconditionally, with attenuation the albedo and the
scattered ray pointing along the fuzz-perturbed reflection, even when that
direction points into the surface; no `dot(scattered, normal) > 0` check is
performed. -/
theorem metal_scatter_always_true (albedo : Color) (fuzz : ℝ) (rayIn : Ray)
    (rec : HitRecord) (sample : RandSample) :
    scatter (.metal albedo fuzz) rayIn rec sample =
      (true, albedo,
        ⟨rec.point, reflectV rayIn.direction.normalize rec.normal + fuzz • sample.unitVec,
          0⟩) := rfl

/-- Claim C4 counterexample: a grazing ray with direction `(−0.8, 0, −0.6)`
against normal `(0,0,1)`, fuzz 1 and random unit vector `(0,0,−1)` yields a
perturbed reflection with `dot(scattered_direction, normal) = −0.4 < 0`, yet
`Metal::scatter` still returns `true` — refuting the claim that it reports
no scatter when the perturbed reflection points into the surface. -/
theorem metal_scatter_into_surface :
    (scatter (.metal ⟨0.8, 0.8, 0.8⟩ 1) ⟨Vec3.zero, ⟨-0.8, 0, -0.6⟩, 0⟩
        { HitRecord.new with normal := ⟨0, 0, 1⟩ } ⟨⟨0, 0, -1⟩, 0⟩).1 = true ∧
    dot (scatter (.metal ⟨0.8, 0.8, 0.8⟩ 1) ⟨Vec3.zero, ⟨-0.8, 0, -0.6⟩, 0⟩
        { HitRecord.new with normal := ⟨0, 0, 1⟩ } ⟨⟨0, 0, -1⟩, 0⟩).2.2.direction
      ⟨0, 0, 1⟩ < 0 := by
  have hmag : (⟨-0.8, 0, -0.6⟩ : Vec3).magnitude = 1 := by
    simp only [Vec3.magnitude]; norm_num
  have hlen : (⟨-0.8, 0, -0.6⟩ : Vec3).length = 1 := by
    simp [Vec3.length, hmag]
  have hnorm : (⟨-0.8, 0, -0.6⟩ : Vec3).normalize = ⟨-0.8, 0, -0.6⟩ := by
    simp [Vec3.normalize, hlen]
  constructor
  · rfl
  · show dot (reflectV (⟨-0.8, 0, -0.6⟩ : Vec3).normalize ⟨0, 0, 1⟩ +
        (1 : ℝ) • (⟨0, 0, -1⟩ : Vec3)) ⟨0, 0, 1⟩ < 0
    rw [hnorm]
    simp only [reflectV, dot, Vec3.add_x, Vec3.add_y, Vec3.add_z, Vec3.sub_x, Vec3.sub_y,
      Vec3.sub_z, Vec3.smul_x, Vec3.smul_y, Vec3.smul_z]
    norm_num

/-- Claim C6: the recursive colour estimator is total (it is defined by
structural recursion on the depth, which the source decrements on every
recursive call); at depth 0 it returns exactly black without consulting the
scene, and along any sampled path at most `depth` scatter events occur. -/
theorem estimator_termination (world : List Sphere) :
    (∀ (ray : Ray) (rng : ℕ → RandSample), getRayColor world 0 ray rng = Vec3.zero) ∧
    (∀ (depth : ℕ) (ray : Ray) (rng : ℕ → RandSample),
      scatterEvents world depth ray rng ≤ depth) := by
  refine ⟨fun ray rng => rfl, ?_⟩
  intro depth
  induction depth with
  | zero => intro ray rng; simp [scatterEvents]
  | succ d ih =>
    intro ray rng
    by_cases h1 : (traceablesHit world ray cameraInterval HitRecord.new).1 = true
    · by_cases h2 : (scatter (traceablesHit world ray cameraInterval HitRecord.new).2.material
          ray (traceablesHit world ray cameraInterval HitRecord.new).2 (rng 0)).1 = true
      · have hrec := ih (scatter (traceablesHit world ray cameraInterval
          HitRecord.new).2.material ray (traceablesHit world ray cameraInterval
          HitRecord.new).2 (rng 0)).2.2 (fun n => rng (n + 1))
        simp only [scatterEvents, h1, if_true, h2]
        omega
      · simp [scatterEvents, h1, h2]
    · simp [scatterEvents, h1]

/-- Claim C7: `Dielectric::scatter` always returns `true` with attenuation
exactly white; the refraction ratio is `1/ior` on the front face and `ior`
otherwise; the scattered direction is the mirror reflection exactly when
`refraction_ratio · sin_theta > 1` or the Schlick reflectance exceeds the
uniform random draw, and the Snell refraction otherwise, with
`cos_theta = min(dot(−unit_incoming, normal), 1)` and
`sin_theta = √(1 − cos_theta²)`.  (`Vec3::refract` is modelled from the
spec; its file is not in the repository snapshot.) -/
theorem dielectric_scatter_spec (ior : ℝ) (rayIn : Ray) (rec : HitRecord)
    (sample : RandSample) :
    (scatter (.dielectric ior) rayIn rec sample).1 = true ∧
    (scatter (.dielectric ior) rayIn rec sample).2.1 = (⟨1, 1, 1⟩ : Color) ∧
    (scatter (.dielectric ior) rayIn rec sample).2.2.origin = rec.point ∧
    (scatter (.dielectric ior) rayIn rec sample).2.2.time = rayIn.time ∧
    (scatter (.dielectric ior) rayIn rec sample).2.2.direction =
      (let refractionRatio := if rec.rayFacesOutside then 1 / ior else ior
       let u := rayIn.direction.normalize
       let cosTheta := min (dot (-u) rec.normal) 1
       let sinTheta := Real.sqrt (1 - cosTheta * cosTheta)
       if refractionRatio * sinTheta > 1 ∨
           reflectance cosTheta refractionRatio > sample.uniform then
         reflectV u rec.normal
       else refractV u rec.normal refractionRatio) :=
  ⟨rfl, rfl, rfl, rfl, rfl⟩

/-- Claim C10: when `Sphere::hit` or `Traceables::hit` returns `false`, the
hit record passed in is returned completely unchanged. -/
theorem hit_false_frame (s : Sphere) (objects : List Sphere) (ray : Ray)
    (i : Interval) (rec : HitRecord) :
    ((sphereHit s ray i rec).1 = false → (sphereHit s ray i rec).2 = rec) ∧
    ((traceablesHit objects ray i rec).1 = false →
      (traceablesHit objects ray i rec).2 = rec) := by
  constructor
  · intro h
    simp only [sphereHit] at h ⊢
    split_ifs at h ⊢ <;> simp_all
  · intro h
    exact (hitLoop_false ray i.min objects HitRecord.new i.max false rec h).2

/-- Claim C10 witness: the theorem applied to a ray that misses the unit
sphere at `(0,0,−2)` (negative discriminant), with the frame property
concluded from the evaluated `false` flags. -/
theorem hit_false_frame_witness :
    ((sphereHit ⟨⟨0, 0, -2⟩, 1, .lambertian Vec3.zero, false, Vec3.zero⟩
        ⟨Vec3.zero, ⟨0, 1, 0⟩, 0⟩ ⟨((0 : ℝ) : EReal), ((100 : ℝ) : EReal)⟩
        HitRecord.new).1 = false ∧
      (sphereHit ⟨⟨0, 0, -2⟩, 1, .lambertian Vec3.zero, false, Vec3.zero⟩
        ⟨Vec3.zero, ⟨0, 1, 0⟩, 0⟩ ⟨((0 : ℝ) : EReal), ((100 : ℝ) : EReal)⟩
        HitRecord.new).2 = HitRecord.new) ∧
    ((traceablesHit [⟨⟨0, 0, -2⟩, 1, .lambertian Vec3.zero, false, Vec3.zero⟩]
        ⟨Vec3.zero, ⟨0, 1, 0⟩, 0⟩ ⟨((0 : ℝ) : EReal), ((100 : ℝ) : EReal)⟩
        HitRecord.new).1 = false ∧
      (traceablesHit [⟨⟨0, 0, -2⟩, 1, .lambertian Vec3.zero, false, Vec3.zero⟩]
        ⟨Vec3.zero, ⟨0, 1, 0⟩, 0⟩ ⟨((0 : ℝ) : EReal), ((100 : ℝ) : EReal)⟩
        HitRecord.new).2 = HitRecord.new) := by
  have hdisc : sphereDisc ⟨⟨0, 0, -2⟩, 1, .lambertian Vec3.zero, false, Vec3.zero⟩
      ⟨Vec3.zero, ⟨0, 1, 0⟩, 0⟩ < 0 := by
    simp only [sphereDisc, sphereA, sphereHalfB, sphereC, hitCenter, Sphere.centerAt,
      Vec3.magnitude, dot, Vec3.zero, Vec3.sub_x, Vec3.sub_y, Vec3.sub_z]
    norm_num
  have hs : ∀ iv : Interval,
      sphereHit ⟨⟨0, 0, -2⟩, 1, .lambertian Vec3.zero, false, Vec3.zero⟩
        ⟨Vec3.zero, ⟨0, 1, 0⟩, 0⟩ iv HitRecord.new = (false, HitRecord.new) := by
    intro iv
    simp [sphereHit, hdisc]
  have ht : traceablesHit [⟨⟨0, 0, -2⟩, 1, .lambertian Vec3.zero, false, Vec3.zero⟩]
      ⟨Vec3.zero, ⟨0, 1, 0⟩, 0⟩ ⟨((0 : ℝ) : EReal), ((100 : ℝ) : EReal)⟩
      HitRecord.new = (false, HitRecord.new) := by
    simp [traceablesHit, hitLoop, hs]
  have happ := hit_false_frame ⟨⟨0, 0, -2⟩, 1, .lambertian Vec3.zero, false, Vec3.zero⟩
    [⟨⟨0, 0, -2⟩, 1, .lambertian Vec3.zero, false, Vec3.zero⟩]
    ⟨Vec3.zero, ⟨0, 1, 0⟩, 0⟩ ⟨((0 : ℝ) : EReal), ((100 : ℝ) : EReal)⟩ HitRecord.new
  refine ⟨⟨by rw [hs], happ.1 (by rw [hs])⟩, ⟨by rw [ht], happ.2 (by rw [ht])⟩⟩

theorem surrounds_coe_coe (a b x : ℝ) :
    (Interval.mk ((a : ℝ) : EReal) ((b : ℝ) : EReal)).surrounds x ↔ a < x ∧ x < b := by
  simp [Interval.surrounds, EReal.coe_lt_coe_iff]

theorem surrounds_coe_top (a x : ℝ) :
    (Interval.mk ((a : ℝ) : EReal) ⊤).surrounds x ↔ a < x := by
  simp [Interval.surrounds, EReal.coe_lt_coe_iff, EReal.coe_lt_top]

theorem sphereRootIn_some_surrounds (s : Sphere) (ray : Ray) (i : Interval) (t : ℝ)
    (h : sphereRootIn s ray i = some t) : i.surrounds t := by
  simp only [sphereRootIn] at h
  split_ifs at h with h1 h2 h3 <;> simp_all

/-- Claim C1: `Sphere::hit` returns `false` exactly when the discriminant
`b² − a·c` is negative or neither candidate root is strictly inside the
interval (the exclusive `surrounds` test rejects roots on the boundary);
otherwise it returns `true` reporting the smaller root `(−b − √disc)/a`
when that root is strictly inside the interval and the larger root
`(−b + √disc)/a` otherwise.  The last conjunct checks that for a
non-degenerate direction the first candidate really is the smaller root. -/
theorem sphere_hit_root_selection (s : Sphere) (ray : Ray) (i : Interval)
    (rec : HitRecord) :
    ((sphereHit s ray i rec).1 = false ↔
      (sphereDisc s ray < 0 ∨
        (¬ i.surrounds (sphereRoot1 s ray) ∧ ¬ i.surrounds (sphereRoot2 s ray)))) ∧
    (0 ≤ sphereDisc s ray → i.surrounds (sphereRoot1 s ray) →
      (sphereHit s ray i rec).1 = true ∧
        (sphereHit s ray i rec).2.parameter = sphereRoot1 s ray) ∧
    (0 ≤ sphereDisc s ray → ¬ i.surrounds (sphereRoot1 s ray) →
      i.surrounds (sphereRoot2 s ray) →
      (sphereHit s ray i rec).1 = true ∧
        (sphereHit s ray i rec).2.parameter = sphereRoot2 s ray) ∧
    (ray.direction ≠ Vec3.zero → 0 ≤ sphereDisc s ray →
      sphereRoot1 s ray ≤ sphereRoot2 s ray) := by
  refine ⟨?_, ?_, ?_, ?_⟩
  · simp only [sphereHit]
    split_ifs with h1 h2 h3 <;> simp_all
  · intro hd h1
    simp [sphereHit, not_lt.mpr hd, h1, spherePopulate_parameter]
  · intro hd h1 h2
    simp [sphereHit, not_lt.mpr hd, h1, h2, spherePopulate_parameter]
  · intro hdir hd
    have ha : 0 < sphereA ray := Vec3.magnitude_pos ray.direction hdir
    have hs : 0 ≤ Real.sqrt (sphereDisc s ray) := Real.sqrt_nonneg _
    unfold sphereRoot1 sphereRoot2
    exact div_le_div_of_nonneg_right (by linarith) ha.le

/-- Claim C1 witness: the theorem applied to the unit sphere at `(0,0,−2)`
and the axis ray with direction `(0,0,−1)` on the interval `(0, 100)`: the
discriminant is 1, the smaller root 1 is strictly inside, and it is the
reported parameter. -/
theorem sphere_hit_root_selection_witness :
    0 ≤ sphereDisc ⟨⟨0, 0, -2⟩, 1, .lambertian Vec3.zero, false, Vec3.zero⟩
        ⟨Vec3.zero, ⟨0, 0, -1⟩, 0⟩ ∧
    (Interval.mk ((0 : ℝ) : EReal) ((100 : ℝ) : EReal)).surrounds
      (sphereRoot1 ⟨⟨0, 0, -2⟩, 1, .lambertian Vec3.zero, false, Vec3.zero⟩
        ⟨Vec3.zero, ⟨0, 0, -1⟩, 0⟩) ∧
    (Ray.mk Vec3.zero ⟨0, 0, -1⟩ 0).direction ≠ Vec3.zero ∧
    ((sphereHit ⟨⟨0, 0, -2⟩, 1, .lambertian Vec3.zero, false, Vec3.zero⟩
        ⟨Vec3.zero, ⟨0, 0, -1⟩, 0⟩ ⟨((0 : ℝ) : EReal), ((100 : ℝ) : EReal)⟩
        HitRecord.new).1 = true ∧
      (sphereHit ⟨⟨0, 0, -2⟩, 1, .lambertian Vec3.zero, false, Vec3.zero⟩
        ⟨Vec3.zero, ⟨0, 0, -1⟩, 0⟩ ⟨((0 : ℝ) : EReal), ((100 : ℝ) : EReal)⟩
        HitRecord.new).2.parameter =
          sphereRoot1 ⟨⟨0, 0, -2⟩, 1, .lambertian Vec3.zero, false, Vec3.zero⟩
            ⟨Vec3.zero, ⟨0, 0, -1⟩, 0⟩) ∧
    sphereRoot1 ⟨⟨0, 0, -2⟩, 1, .lambertian Vec3.zero, false, Vec3.zero⟩
        ⟨Vec3.zero, ⟨0, 0, -1⟩, 0⟩ ≤
      sphereRoot2 ⟨⟨0, 0, -2⟩, 1, .lambertian Vec3.zero, false, Vec3.zero⟩
        ⟨Vec3.zero, ⟨0, 0, -1⟩, 0⟩ := by
  have hdisc : sphereDisc ⟨⟨0, 0, -2⟩, 1, .lambertian Vec3.zero, false, Vec3.zero⟩
      ⟨Vec3.zero, ⟨0, 0, -1⟩, 0⟩ = 1 := by
    simp only [sphereDisc, sphereA, sphereHalfB, sphereC, hitCenter, Sphere.centerAt,
      Vec3.magnitude, dot, Vec3.zero, Vec3.sub_x, Vec3.sub_y, Vec3.sub_z]
    norm_num
  have hhb : sphereHalfB ⟨⟨0, 0, -2⟩, 1, .lambertian Vec3.zero, false, Vec3.zero⟩
      ⟨Vec3.zero, ⟨0, 0, -1⟩, 0⟩ = -2 := by
    simp only [sphereHalfB, hitCenter, Sphere.centerAt, dot, Vec3.zero, Vec3.sub_x,
      Vec3.sub_y, Vec3.sub_z]
    norm_num
  have ha : sphereA ⟨Vec3.zero, ⟨0, 0, -1⟩, 0⟩ = 1 := by
    simp only [sphereA, Vec3.magnitude]
    norm_num
  have hroot1 : sphereRoot1 ⟨⟨0, 0, -2⟩, 1, .lambertian Vec3.zero, false, Vec3.zero⟩
      ⟨Vec3.zero, ⟨0, 0, -1⟩, 0⟩ = 1 := by
    rw [sphereRoot1, hdisc, hhb, ha]
    norm_num
  have hd : (0 : ℝ) ≤ sphereDisc ⟨⟨0, 0, -2⟩, 1, .lambertian Vec3.zero, false, Vec3.zero⟩
      ⟨Vec3.zero, ⟨0, 0, -1⟩, 0⟩ := by rw [hdisc]; norm_num
  have hsur : (Interval.mk ((0 : ℝ) : EReal) ((100 : ℝ) : EReal)).surrounds
      (sphereRoot1 ⟨⟨0, 0, -2⟩, 1, .lambertian Vec3.zero, false, Vec3.zero⟩
        ⟨Vec3.zero, ⟨0, 0, -1⟩, 0⟩) := by
    rw [hroot1, surrounds_coe_coe]
    norm_num
  have hdir : (Ray.mk Vec3.zero ⟨0, 0, -1⟩ 0).direction ≠ Vec3.zero := by
    simp [Vec3.zero, Vec3.mk.injEq]
  have happ := sphere_hit_root_selection
    ⟨⟨0, 0, -2⟩, 1, .lambertian Vec3.zero, false, Vec3.zero⟩
    ⟨Vec3.zero, ⟨0, 0, -1⟩, 0⟩ ⟨((0 : ℝ) : EReal), ((100 : ℝ) : EReal)⟩ HitRecord.new
  exact ⟨hd, hsur, hdir, happ.2.1 hd hsur, happ.2.2.2 hdir hd⟩

/-- Claim C5, amended: the recursive colour estimator tests rays against the
scene restricted to the open interval `(0.1, +∞)` — `Interval::new(0.1,
f64::INFINITY)` — not `(0.001, +∞)` as claimed: parameters `t ≤ 0.1` are
never accepted, parameters `t > 0.1` are strictly inside the interval, and
every parameter a sphere reports under the estimator's interval
`cameraInterval` exceeds 0.1. -/
theorem estimator_interval_bound :
    (∀ t : ℝ, t ≤ 0.1 → ¬ cameraInterval.surrounds t) ∧
    (∀ t : ℝ, 0.1 < t → cameraInterval.surrounds t) ∧
    (∀ (s : Sphere) (ray : Ray) (rec : HitRecord),
      (sphereHit s ray cameraInterval rec).1 = true →
        0.1 < (sphereHit s ray cameraInterval rec).2.parameter) := by
  refine ⟨?_, ?_, ?_⟩
  · intro t ht h
    exact absurd ((surrounds_coe_top 0.1 t).mp h) (not_lt.mpr ht)
  · intro t ht
    exact (surrounds_coe_top 0.1 t).mpr ht
  · intro s ray rec h
    cases hrt : sphereRootIn s ray cameraInterval with
    | none =>
      rw [sphereHit_none s ray cameraInterval rec hrt] at h
      exact absurd h (by simp)
    | some t =>
      rw [sphereHit_some s ray cameraInterval rec t hrt, spherePopulate_parameter]
      exact (surrounds_coe_top 0.1 t).mp
        (sphereRootIn_some_surrounds s ray cameraInterval t hrt)

/-- Claim C5 witness: `t = 0.05 ≤ 0.1` is rejected, `t = 0.2 > 0.1` is
inside, and the accepted hit of the unit sphere at `(0,0,−2)` (parameter 1)
has parameter above 0.1. -/
theorem estimator_interval_bound_witness :
    ((0.05 : ℝ) ≤ 0.1 ∧ ¬ cameraInterval.surrounds 0.05) ∧
    ((0.1 : ℝ) < 0.2 ∧ cameraInterval.surrounds 0.2) ∧
    ((sphereHit ⟨⟨0, 0, -2⟩, 1, .lambertian Vec3.zero, false, Vec3.zero⟩
        ⟨Vec3.zero, ⟨0, 0, -1⟩, 0⟩ cameraInterval HitRecord.new).1 = true ∧
      0.1 < (sphereHit ⟨⟨0, 0, -2⟩, 1, .lambertian Vec3.zero, false, Vec3.zero⟩
        ⟨Vec3.zero, ⟨0, 0, -1⟩, 0⟩ cameraInterval HitRecord.new).2.parameter) := by
  have hdisc : sphereDisc ⟨⟨0, 0, -2⟩, 1, .lambertian Vec3.zero, false, Vec3.zero⟩
      ⟨Vec3.zero, ⟨0, 0, -1⟩, 0⟩ = 1 := by
    simp only [sphereDisc, sphereA, sphereHalfB, sphereC, hitCenter, Sphere.centerAt,
      Vec3.magnitude, dot, Vec3.zero, Vec3.sub_x, Vec3.sub_y, Vec3.sub_z]
    norm_num
  have hhb : sphereHalfB ⟨⟨0, 0, -2⟩, 1, .lambertian Vec3.zero, false, Vec3.zero⟩
      ⟨Vec3.zero, ⟨0, 0, -1⟩, 0⟩ = -2 := by
    simp only [sphereHalfB, hitCenter, Sphere.centerAt, dot, Vec3.zero, Vec3.sub_x,
      Vec3.sub_y, Vec3.sub_z]
    norm_num
  have ha : sphereA ⟨Vec3.zero, ⟨0, 0, -1⟩, 0⟩ = 1 := by
    simp only [sphereA, Vec3.magnitude]
    norm_num
  have hroot1 : sphereRoot1 ⟨⟨0, 0, -2⟩, 1, .lambertian Vec3.zero, false, Vec3.zero⟩
      ⟨Vec3.zero, ⟨0, 0, -1⟩, 0⟩ = 1 := by
    rw [sphereRoot1, hdisc, hhb, ha]
    norm_num
  have hrt : sphereRootIn ⟨⟨0, 0, -2⟩, 1, .lambertian Vec3.zero, false, Vec3.zero⟩
      ⟨Vec3.zero, ⟨0, 0, -1⟩, 0⟩ cameraInterval = some 1 := by
    rw [sphereRootIn, if_neg (by rw [hdisc]; norm_num),
      if_pos (by rw [hroot1]; exact (surrounds_coe_top 0.1 1).mpr (by norm_num)), hroot1]
  have hflag : (sphereHit ⟨⟨0, 0, -2⟩, 1, .lambertian Vec3.zero, false, Vec3.zero⟩
      ⟨Vec3.zero, ⟨0, 0, -1⟩, 0⟩ cameraInterval HitRecord.new).1 = true := by
    rw [sphereHit_some _ _ _ _ 1 hrt]
  have happ := estimator_interval_bound
  exact ⟨⟨by norm_num, happ.1 0.05 (by norm_num)⟩,
    ⟨by norm_num, happ.2.1 0.2 (by norm_num)⟩,
    ⟨hflag, happ.2.2 _ _ _ hflag⟩⟩

/-- Claim C5 counterexample: the sphere of radius 0.01 centred at
`(0,0,−0.05)` is hit by the axis ray at parameter `0.04`, which lies inside
the claimed interval `(0.001, +∞)`, yet the estimator returns the sky
gradient for that ray (its scene test uses the lower bound 0.1, so the
intersection is not eligible, refuting "any intersection with t > 0.001 is
eligible"). -/
theorem estimator_rejects_small_parameter :
    (sphereHit ⟨⟨0, 0, -0.05⟩, 0.01, .lambertian Vec3.zero, false, Vec3.zero⟩
        ⟨Vec3.zero, ⟨0, 0, -1⟩, 0⟩ ⟨((0.001 : ℝ) : EReal), ⊤⟩ HitRecord.new).1 = true ∧
    (sphereHit ⟨⟨0, 0, -0.05⟩, 0.01, .lambertian Vec3.zero, false, Vec3.zero⟩
        ⟨Vec3.zero, ⟨0, 0, -1⟩, 0⟩ ⟨((0.001 : ℝ) : EReal), ⊤⟩ HitRecord.new).2.parameter =
      0.04 ∧
    (0.001 : ℝ) < 0.04 ∧
    ¬ cameraInterval.surrounds 0.04 ∧
    getRayColor [⟨⟨0, 0, -0.05⟩, 0.01, .lambertian Vec3.zero, false, Vec3.zero⟩] 1
        ⟨Vec3.zero, ⟨0, 0, -1⟩, 0⟩ (fun _ => ⟨Vec3.zero, 0⟩) =
      skyColor ⟨Vec3.zero, ⟨0, 0, -1⟩, 0⟩ := by
  have hdisc : sphereDisc ⟨⟨0, 0, -0.05⟩, 0.01, .lambertian Vec3.zero, false, Vec3.zero⟩
      ⟨Vec3.zero, ⟨0, 0, -1⟩, 0⟩ = 0.0001 := by
    simp only [sphereDisc, sphereA, sphereHalfB, sphereC, hitCenter, Sphere.centerAt,
      Vec3.magnitude, dot, Vec3.zero, Vec3.sub_x, Vec3.sub_y, Vec3.sub_z]
    norm_num
  have hhb : sphereHalfB ⟨⟨0, 0, -0.05⟩, 0.01, .lambertian Vec3.zero, false, Vec3.zero⟩
      ⟨Vec3.zero, ⟨0, 0, -1⟩, 0⟩ = -0.05 := by
    simp only [sphereHalfB, hitCenter, Sphere.centerAt, dot, Vec3.zero, Vec3.sub_x,
      Vec3.sub_y, Vec3.sub_z]
    norm_num
  have ha : sphereA ⟨Vec3.zero, ⟨0, 0, -1⟩, 0⟩ = 1 := by
    simp only [sphereA, Vec3.magnitude]
    norm_num
  have hsqrt : Real.sqrt 0.0001 = 0.01 := by
    rw [show (0.0001 : ℝ) = 0.01 * 0.01 by norm_num]
    exact Real.sqrt_mul_self (by norm_num)
  have hroot1 : sphereRoot1 ⟨⟨0, 0, -0.05⟩, 0.01, .lambertian Vec3.zero, false, Vec3.zero⟩
      ⟨Vec3.zero, ⟨0, 0, -1⟩, 0⟩ = 0.04 := by
    rw [sphereRoot1, hdisc, hhb, ha, hsqrt]
    norm_num
  have hroot2 : sphereRoot2 ⟨⟨0, 0, -0.05⟩, 0.01, .lambertian Vec3.zero, false, Vec3.zero⟩
      ⟨Vec3.zero, ⟨0, 0, -1⟩, 0⟩ = 0.06 := by
    rw [sphereRoot2, hdisc, hhb, ha, hsqrt]
    norm_num
  have hrtClaim : sphereRootIn ⟨⟨0, 0, -0.05⟩, 0.01, .lambertian Vec3.zero, false, Vec3.zero⟩
      ⟨Vec3.zero, ⟨0, 0, -1⟩, 0⟩ ⟨((0.001 : ℝ) : EReal), ⊤⟩ = some 0.04 := by
    rw [sphereRootIn, if_neg (by rw [hdisc]; norm_num),
      if_pos (by rw [hroot1]; exact (surrounds_coe_top 0.001 0.04).mpr (by norm_num)), hroot1]
  have hrtCam : sphereRootIn ⟨⟨0, 0, -0.05⟩, 0.01, .lambertian Vec3.zero, false, Vec3.zero⟩
      ⟨Vec3.zero, ⟨0, 0, -1⟩, 0⟩ cameraInterval = none := by
    rw [sphereRootIn, if_neg (by rw [hdisc]; norm_num),
      if_neg (by rw [hroot1]; simp only [cameraInterval, surrounds_coe_top]; norm_num),
      if_neg (by rw [hroot2]; simp only [cameraInterval, surrounds_coe_top]; norm_num)]
  have hhitClaim := sphereHit_some ⟨⟨0, 0, -0.05⟩, 0.01, .lambertian Vec3.zero, false,
    Vec3.zero⟩ ⟨Vec3.zero, ⟨0, 0, -1⟩, 0⟩ ⟨((0.001 : ℝ) : EReal), ⊤⟩ HitRecord.new 0.04
    hrtClaim
  have hmissCam : sphereHit ⟨⟨0, 0, -0.05⟩, 0.01, .lambertian Vec3.zero, false, Vec3.zero⟩
      ⟨Vec3.zero, ⟨0, 0, -1⟩, 0⟩ ⟨cameraInterval.min, cameraInterval.max⟩ HitRecord.new =
      (false, HitRecord.new) :=
    sphereHit_none _ _ _ _ hrtCam
  have hagg : traceablesHit [⟨⟨0, 0, -0.05⟩, 0.01, .lambertian Vec3.zero, false, Vec3.zero⟩]
      ⟨Vec3.zero, ⟨0, 0, -1⟩, 0⟩ cameraInterval HitRecord.new = (false, HitRecord.new) := by
    simp only [traceablesHit, hitLoop, hmissCam]
    simp
  refine ⟨by rw [hhitClaim], by rw [hhitClaim, spherePopulate_parameter], by norm_num,
    ?_, ?_⟩
  · simp only [cameraInterval, surrounds_coe_top]
    norm_num
  · rw [show (1 : ℕ) = 0 + 1 from rfl]
    simp only [getRayColor, hagg]
    simp

/-- Claim C8, divergence at a concrete input: for the moving sphere with
start centre `(0,0,−2)`, end centre `(1,0,−2)` (lerp factor `(1,0,0)`) and
radius 1, hit by the axis ray at time 1, `Sphere::hit` accepts the root
`t = 2` computed against the time-evaluated centre `(1,0,−2)`, so the hit
point is `(0,0,−2)`; but the populated outward normal is computed from the
STATIC start centre (`self.center`, line 122), giving the degenerate normal
`(0,0,0)` instead of `±(point − C(time))/radius = ±(−1,0,0)` required by the
claim.  The parameter, point and attached material match the claim. -/
theorem moving_sphere_normal_uses_start_center :
    (sphereHit ⟨⟨0, 0, -2⟩, 1, .lambertian ⟨0.5, 0.5, 0.5⟩, true, ⟨1, 0, 0⟩⟩
        ⟨Vec3.zero, ⟨0, 0, -1⟩, 1⟩ ⟨((0 : ℝ) : EReal), ((100 : ℝ) : EReal)⟩
        HitRecord.new).1 = true ∧
    (sphereHit ⟨⟨0, 0, -2⟩, 1, .lambertian ⟨0.5, 0.5, 0.5⟩, true, ⟨1, 0, 0⟩⟩
        ⟨Vec3.zero, ⟨0, 0, -1⟩, 1⟩ ⟨((0 : ℝ) : EReal), ((100 : ℝ) : EReal)⟩
        HitRecord.new).2.parameter = 2 ∧
    (sphereHit ⟨⟨0, 0, -2⟩, 1, .lambertian ⟨0.5, 0.5, 0.5⟩, true, ⟨1, 0, 0⟩⟩
        ⟨Vec3.zero, ⟨0, 0, -1⟩, 1⟩ ⟨((0 : ℝ) : EReal), ((100 : ℝ) : EReal)⟩
        HitRecord.new).2.point = Ray.at ⟨Vec3.zero, ⟨0, 0, -1⟩, 1⟩ 2 ∧
    (sphereHit ⟨⟨0, 0, -2⟩, 1, .lambertian ⟨0.5, 0.5, 0.5⟩, true, ⟨1, 0, 0⟩⟩
        ⟨Vec3.zero, ⟨0, 0, -1⟩, 1⟩ ⟨((0 : ℝ) : EReal), ((100 : ℝ) : EReal)⟩
        HitRecord.new).2.material = .lambertian ⟨0.5, 0.5, 0.5⟩ ∧
    (Ray.at ⟨Vec3.zero, ⟨0, 0, -1⟩, 1⟩ 2 -
        Sphere.centerAt ⟨⟨0, 0, -2⟩, 1, .lambertian ⟨0.5, 0.5, 0.5⟩, true, ⟨1, 0, 0⟩⟩ 1) /
      (1 : ℝ) = (⟨-1, 0, 0⟩ : Vec3) ∧
    (sphereHit ⟨⟨0, 0, -2⟩, 1, .lambertian ⟨0.5, 0.5, 0.5⟩, true, ⟨1, 0, 0⟩⟩
        ⟨Vec3.zero, ⟨0, 0, -1⟩, 1⟩ ⟨((0 : ℝ) : EReal), ((100 : ℝ) : EReal)⟩
        HitRecord.new).2.normal = Vec3.zero ∧
    (sphereHit ⟨⟨0, 0, -2⟩, 1, .lambertian ⟨0.5, 0.5, 0.5⟩, true, ⟨1, 0, 0⟩⟩
        ⟨Vec3.zero, ⟨0, 0, -1⟩, 1⟩ ⟨((0 : ℝ) : EReal), ((100 : ℝ) : EReal)⟩
        HitRecord.new).2.normal ≠ (⟨-1, 0, 0⟩ : Vec3) ∧
    (sphereHit ⟨⟨0, 0, -2⟩, 1, .lambertian ⟨0.5, 0.5, 0.5⟩, true, ⟨1, 0, 0⟩⟩
        ⟨Vec3.zero, ⟨0, 0, -1⟩, 1⟩ ⟨((0 : ℝ) : EReal), ((100 : ℝ) : EReal)⟩
        HitRecord.new).2.normal ≠ -(⟨-1, 0, 0⟩ : Vec3) := by
  have hhb : sphereHalfB ⟨⟨0, 0, -2⟩, 1, .lambertian ⟨0.5, 0.5, 0.5⟩, true, ⟨1, 0, 0⟩⟩
      ⟨Vec3.zero, ⟨0, 0, -1⟩, 1⟩ = -2 := by
    simp only [sphereHalfB, hitCenter, Sphere.centerAt, if_true, Vec3.zero, Vec3.smul_mk,
      Vec3.mk_add_mk, Vec3.mk_sub_mk, dot_mk_mk]
    norm_num
  have hcc : sphereC ⟨⟨0, 0, -2⟩, 1, .lambertian ⟨0.5, 0.5, 0.5⟩, true, ⟨1, 0, 0⟩⟩
      ⟨Vec3.zero, ⟨0, 0, -1⟩, 1⟩ = 4 := by
    simp only [sphereC, hitCenter, Sphere.centerAt, if_true, Vec3.zero, Vec3.smul_mk,
      Vec3.mk_add_mk, Vec3.mk_sub_mk, dot_mk_mk]
    norm_num
  have ha : sphereA ⟨Vec3.zero, ⟨0, 0, -1⟩, 1⟩ = 1 := by
    simp only [sphereA, Vec3.magnitude_mk]
    norm_num
  have hdisc : sphereDisc ⟨⟨0, 0, -2⟩, 1, .lambertian ⟨0.5, 0.5, 0.5⟩, true, ⟨1, 0, 0⟩⟩
      ⟨Vec3.zero, ⟨0, 0, -1⟩, 1⟩ = 0 := by
    rw [sphereDisc, hhb, hcc, ha]
    norm_num
  have hroot1 : sphereRoot1 ⟨⟨0, 0, -2⟩, 1, .lambertian ⟨0.5, 0.5, 0.5⟩, true, ⟨1, 0, 0⟩⟩
      ⟨Vec3.zero, ⟨0, 0, -1⟩, 1⟩ = 2 := by
    rw [sphereRoot1, hdisc, hhb, ha, Real.sqrt_zero]
    norm_num
  have hrt : sphereRootIn ⟨⟨0, 0, -2⟩, 1, .lambertian ⟨0.5, 0.5, 0.5⟩, true, ⟨1, 0, 0⟩⟩
      ⟨Vec3.zero, ⟨0, 0, -1⟩, 1⟩ ⟨((0 : ℝ) : EReal), ((100 : ℝ) : EReal)⟩ = some 2 := by
    rw [sphereRootIn, if_neg (by rw [hdisc]; norm_num),
      if_pos (by rw [hroot1, surrounds_coe_coe]; norm_num), hroot1]
  have hhit := sphereHit_some ⟨⟨0, 0, -2⟩, 1, .lambertian ⟨0.5, 0.5, 0.5⟩, true, ⟨1, 0, 0⟩⟩
    ⟨Vec3.zero, ⟨0, 0, -1⟩, 1⟩ ⟨((0 : ℝ) : EReal), ((100 : ℝ) : EReal)⟩ HitRecord.new 2 hrt
  have hat : Ray.at ⟨Vec3.zero, ⟨0, 0, -1⟩, 1⟩ 2 = (⟨0, 0, -2⟩ : Vec3) := by
    simp only [Ray.at, Vec3.zero, Vec3.smul_mk, Vec3.mk_add_mk, Vec3.mk.injEq]
    norm_num
  have hout : ((Ray.at ⟨Vec3.zero, ⟨0, 0, -1⟩, 1⟩ 2 - (⟨0, 0, -2⟩ : Vec3)) / (1 : ℝ)) =
      (⟨0, 0, 0⟩ : Vec3) := by
    rw [hat]
    simp only [Vec3.mk_sub_mk, Vec3.mk_div, Vec3.mk.injEq]
    norm_num
  have hnormal : (spherePopulate ⟨⟨0, 0, -2⟩, 1, .lambertian ⟨0.5, 0.5, 0.5⟩, true, ⟨1, 0, 0⟩⟩
      ⟨Vec3.zero, ⟨0, 0, -1⟩, 1⟩ 2 HitRecord.new).normal = Vec3.zero := by
    simp only [spherePopulate, setNormalFace, hout]
    norm_num [Vec3.zero, Vec3.mk.injEq]
  refine ⟨by rw [hhit], by rw [hhit, spherePopulate_parameter],
    by rw [hhit, spherePopulate_point], by rw [hhit, spherePopulate_material], ?_, ?_, ?_, ?_⟩
  · rw [hat]
    simp only [Sphere.centerAt, if_true, Vec3.smul_mk, Vec3.mk_add_mk, Vec3.mk_sub_mk,
      Vec3.mk_div, Vec3.mk.injEq]
    norm_num
  · rw [hhit]
    exact hnormal
  · rw [hhit, hnormal]
    simp only [Vec3.zero, Vec3.mk.injEq, not_and]
    norm_num
  · rw [hhit, hnormal]
    simp only [Vec3.zero, Vec3.neg_mk, Vec3.mk.injEq, not_and]
    norm_num

theorem intensity_clamp_bounds (x : ℝ) :
    0 ≤ intensity.clamp x ∧ intensity.clamp x ≤ 0.999 := by
  unfold Interval.clamp intensity
  split_ifs with h1 h2
  · simp only [EReal.toReal_coe]
    norm_num
  · simp only [EReal.toReal_coe]
    norm_num
  · have hx0 : (0 : ℝ) ≤ x := EReal.coe_le_coe_iff.mp (not_lt.mp h1)
    have hx9 : x ≤ 0.999 := EReal.coe_le_coe_iff.mp (not_lt.mp h2)
    exact ⟨hx0, hx9⟩

theorem f64AsI32_bounds (v : ℝ) (h0 : 0 ≤ v) (h : v < 256) :
    0 ≤ f64AsI32 v ∧ f64AsI32 v ≤ 255 := by
  have hnlt : ¬ v < 0 := not_lt.mpr h0
  have hfl0 : (0 : ℤ) ≤ ⌊v⌋ := Int.floor_nonneg.mpr h0
  have hfl : ⌊v⌋ < 256 := by
    rw [Int.floor_lt]
    exact_mod_cast h
  unfold f64AsI32
  rw [if_neg hnlt, min_eq_right (by omega), max_eq_right (by omega)]
  omega

theorem writeColorInts_channel_bounds (x : ℝ) :
    0 ≤ f64AsI32 (256 * intensity.clamp x) ∧ f64AsI32 (256 * intensity.clamp x) ≤ 255 := by
  obtain ⟨h0, h9⟩ := intensity_clamp_bounds x
  exact f64AsI32_bounds _ (by linarith) (by linarith)

theorem rowMajor_length (w : ℕ) (f : ℕ → ℕ → String) :
    ∀ h : ℕ, ((List.range h).flatMap
      (fun j => (List.range w).map (fun i => f i j))).length = h * w := by
  intro h
  induction h with
  | zero => simp
  | succ n ih =>
    rw [List.range_succ, List.flatMap_append, List.length_append, ih]
    simp [Nat.succ_mul]

theorem rowMajor_get (w : ℕ) (f : ℕ → ℕ → String) :
    ∀ (h i j : ℕ), i < w → j < h →
      ((List.range h).flatMap
        (fun j => (List.range w).map (fun i => f i j)))[j * w + i]? = some (f i j) := by
  intro h
  induction h with
  | zero => intro i j _ hj; omega
  | succ n ih =>
    intro i j hi hj
    rw [List.range_succ, List.flatMap_append]
    rcases Nat.lt_or_ge j n with hjn | hjn
    · rw [List.getElem?_append_left
        (by rw [rowMajor_length]; calc j * w + i < j * w + w := by omega
              _ = (j + 1) * w := by ring
              _ ≤ n * w := Nat.mul_le_mul_right w (by omega))]
      exact ih i j hi hjn
    · have hjeq : j = n := by omega
      subst hjeq
      rw [List.getElem?_append_right (by rw [rowMajor_length]; omega)]
      rw [rowMajor_length]
      simp only [List.flatMap_cons, List.flatMap_nil, List.append_nil,
        Nat.add_sub_cancel_left, List.getElem?_map, List.getElem?_range hi, Option.map_some']

/-- Claim C9: `write_color` divides each accumulated channel by the sample
count, gamma corrects with a square root, clamps to `[0, 0.999]` and encodes
an integer triple each of whose components lies in `[0, 255]`; the emitted
file begins with the header lines `P3`, `"<width> <height>"` and `255`,
followed by one triple line per pixel in row-major order (pixel `(i, j)` on
line `3 + j·width + i`).  (`Interval::clamp` is modelled from the spec; its
`math::interval` file is not in the repository snapshot.) -/
theorem render_output_format (w h samples : ℕ) (pc : ℕ → ℕ → Color)
    (hsamples : 1 ≤ samples)
    (hnonneg : ∀ i j : ℕ, 0 ≤ (pc i j).x ∧ 0 ≤ (pc i j).y ∧ 0 ≤ (pc i j).z) :
    (renderLines w h samples pc).take 3 =
      ["P3", toString w ++ " " ++ toString h, "255"] ∧
    (renderLines w h samples pc).length = 3 + w * h ∧
    (∀ i j : ℕ, i < w → j < h →
      (renderLines w h samples pc)[3 + (j * w + i)]? =
        some (writeColorLine (pc i j) samples)) ∧
    (∀ i j : ℕ,
      0 ≤ (writeColorInts (pc i j) samples).1 ∧
        (writeColorInts (pc i j) samples).1 ≤ 255 ∧
      0 ≤ (writeColorInts (pc i j) samples).2.1 ∧
        (writeColorInts (pc i j) samples).2.1 ≤ 255 ∧
      0 ≤ (writeColorInts (pc i j) samples).2.2 ∧
        (writeColorInts (pc i j) samples).2.2 ≤ 255) := by
  refine ⟨rfl, ?_, ?_, ?_⟩
  · rw [renderLines, List.length_append, rowMajor_length]
    simp [Nat.mul_comm]
  · intro i j hi hj
    rw [renderLines, List.getElem?_append_right (by simp)]
    simp only [List.length_cons, List.length_nil]
    rw [show 3 + (j * w + i) - (0 + 1 + 1 + 1) = j * w + i by omega]
    exact rowMajor_get w _ h i j hi hj
  · intro i j
    refine ⟨(writeColorInts_channel_bounds _).1, (writeColorInts_channel_bounds _).2,
      (writeColorInts_channel_bounds _).1, (writeColorInts_channel_bounds _).2,
      (writeColorInts_channel_bounds _).1, (writeColorInts_channel_bounds _).2⟩

/-- Claim C9 witness: the theorem applied to a 2×1 image with one sample per
pixel and the accumulated colour `(1, 0.25, 0)` (non-negative channels). -/
theorem render_output_format_witness :
    (1 ≤ 1 ∧ (∀ i j : ℕ,
      0 ≤ ((fun _ _ => (⟨1, 0.25, 0⟩ : Color)) i j).x ∧
      0 ≤ ((fun _ _ => (⟨1, 0.25, 0⟩ : Color)) i j).y ∧
      0 ≤ ((fun _ _ => (⟨1, 0.25, 0⟩ : Color)) i j).z)) ∧
    ((renderLines 2 1 1 (fun _ _ => ⟨1, 0.25, 0⟩)).take 3 =
      ["P3", toString 2 ++ " " ++ toString 1, "255"] ∧
    (renderLines 2 1 1 (fun _ _ => ⟨1, 0.25, 0⟩)).length = 3 + 2 * 1 ∧
    (∀ i j : ℕ, i < 2 → j < 1 →
      (renderLines 2 1 1 (fun _ _ => ⟨1, 0.25, 0⟩))[3 + (j * 2 + i)]? =
        some (writeColorLine ((fun _ _ => (⟨1, 0.25, 0⟩ : Color)) i j) 1)) ∧
    (∀ i j : ℕ,
      0 ≤ (writeColorInts ((fun _ _ => (⟨1, 0.25, 0⟩ : Color)) i j) 1).1 ∧
        (writeColorInts ((fun _ _ => (⟨1, 0.25, 0⟩ : Color)) i j) 1).1 ≤ 255 ∧
      0 ≤ (writeColorInts ((fun _ _ => (⟨1, 0.25, 0⟩ : Color)) i j) 1).2.1 ∧
        (writeColorInts ((fun _ _ => (⟨1, 0.25, 0⟩ : Color)) i j) 1).2.1 ≤ 255 ∧
      0 ≤ (writeColorInts ((fun _ _ => (⟨1, 0.25, 0⟩ : Color)) i j) 1).2.2 ∧
        (writeColorInts ((fun _ _ => (⟨1, 0.25, 0⟩ : Color)) i j) 1).2.2 ≤ 255)) := by
  have hyp : ∀ i j : ℕ,
      0 ≤ ((fun _ _ => (⟨1, 0.25, 0⟩ : Color)) i j).x ∧
      0 ≤ ((fun _ _ => (⟨1, 0.25, 0⟩ : Color)) i j).y ∧
      0 ≤ ((fun _ _ => (⟨1, 0.25, 0⟩ : Color)) i j).z := by
    intro i j
    norm_num
  exact ⟨⟨le_refl 1, hyp⟩,
    render_output_format 2 1 1 (fun _ _ => ⟨1, 0.25, 0⟩) (le_refl 1) hyp⟩

theorem Interval.surrounds_mk (a b : EReal) (x : ℝ) :
    (Interval.mk a b).surrounds x ↔ a < (x : EReal) ∧ (x : EReal) < b := Iff.rfl

theorem sphereRoot_le (s : Sphere) (ray : Ray) (ha : 0 < sphereA ray) :
    sphereRoot1 s ray ≤ sphereRoot2 s ray := by
  unfold sphereRoot1 sphereRoot2
  exact div_le_div_of_nonneg_right
    (by linarith [Real.sqrt_nonneg (sphereDisc s ray)]) ha.le

theorem narrow_iff (s : Sphere) (ray : Ray) (ha : 0 < sphereA ray) (m c c' : EReal)
    (hcc : c ≤ c') (t : ℝ) :
    sphereRootIn s ray ⟨m, c⟩ = some t ↔
      sphereRootIn s ray ⟨m, c'⟩ = some t ∧ (t : EReal) < c := by
  have hr : ((sphereRoot1 s ray : ℝ) : EReal) ≤ ((sphereRoot2 s ray : ℝ) : EReal) :=
    EReal.coe_le_coe_iff.mpr (sphereRoot_le s ray ha)
  by_cases hd : sphereDisc s ray < 0
  · rw [sphereRootIn, if_pos hd, sphereRootIn, if_pos hd]
    simp
  · rw [sphereRootIn, if_neg hd, sphereRootIn, if_neg hd]
    by_cases h1c : (Interval.mk m c).surrounds (sphereRoot1 s ray)
    · obtain ⟨hm1, hc1⟩ := (Interval.surrounds_mk m c _).mp h1c
      have h1c' : (Interval.mk m c').surrounds (sphereRoot1 s ray) :=
        (Interval.surrounds_mk m c' _).mpr ⟨hm1, hc1.trans_le hcc⟩
      rw [if_pos h1c, if_pos h1c']
      constructor
      · intro h
        refine ⟨h, ?_⟩
        injection h with h'
        subst h'
        exact hc1
      · rintro ⟨h, _⟩
        exact h
    · rw [if_neg h1c]
      by_cases h2c : (Interval.mk m c).surrounds (sphereRoot2 s ray)
      · obtain ⟨hm2, hc2⟩ := (Interval.surrounds_mk m c _).mp h2c
        have h2c' : (Interval.mk m c').surrounds (sphereRoot2 s ray) :=
          (Interval.surrounds_mk m c' _).mpr ⟨hm2, hc2.trans_le hcc⟩
        have h1c' : ¬ (Interval.mk m c').surrounds (sphereRoot1 s ray) := by
          intro hx
          obtain ⟨hm1, _⟩ := (Interval.surrounds_mk m c' _).mp hx
          have hnlt : ¬ ((sphereRoot1 s ray : ℝ) : EReal) < c := fun hlt =>
            h1c ((Interval.surrounds_mk m c _).mpr ⟨hm1, hlt⟩)
          exact absurd (lt_of_le_of_lt hr hc2) (not_lt.mpr (not_lt.mp hnlt))
        rw [if_pos h2c, if_neg h1c', if_pos h2c']
        constructor
        · intro h
          refine ⟨h, ?_⟩
          injection h with h'
          subst h'
          exact hc2
        · rintro ⟨h, _⟩
          exact h
      · rw [if_neg h2c]
        constructor
        · intro h
          exact absurd h (by simp)
        · rintro ⟨h, hlt⟩
          exfalso
          by_cases h1c' : (Interval.mk m c').surrounds (sphereRoot1 s ray)
          · rw [if_pos h1c'] at h
            injection h with h'
            subst h'
            obtain ⟨hm1, _⟩ := (Interval.surrounds_mk m c' _).mp h1c'
            exact h1c ((Interval.surrounds_mk m c _).mpr ⟨hm1, hlt⟩)
          · rw [if_neg h1c'] at h
            by_cases h2c' : (Interval.mk m c').surrounds (sphereRoot2 s ray)
            · rw [if_pos h2c'] at h
              injection h with h'
              subst h'
              obtain ⟨hm2, _⟩ := (Interval.surrounds_mk m c' _).mp h2c'
              exact h2c ((Interval.surrounds_mk m c _).mpr ⟨hm2, hlt⟩)
            · rw [if_neg h2c'] at h
              exact absurd h (by simp)

theorem hitLoop_spec (ray : Ray) (m M0 : EReal) (ha : 0 < sphereA ray) :
    ∀ (rest : List Sphere) (temp rec : HitRecord) (closest : EReal) (hasHit : Bool),
      closest ≤ M0 →
      (hasHit = true → ((rec.parameter : ℝ) : EReal) = closest) →
      (((hitLoop ray m rest temp closest hasHit rec).1 = true ↔
          hasHit = true ∨
            ∃ t ∈ hitParams rest ray ⟨m, M0⟩, (t : EReal) < closest) ∧
        ((hitLoop ray m rest temp closest hasHit rec).1 = true →
          (((hitLoop ray m rest temp closest hasHit rec).2.parameter : EReal) ≤ closest ∧
            ((hitLoop ray m rest temp closest hasHit rec).2 = rec ∧ hasHit = true ∨
              (hitLoop ray m rest temp closest hasHit rec).2.parameter ∈
                hitParams rest ray ⟨m, M0⟩) ∧
            ∀ t ∈ hitParams rest ray ⟨m, M0⟩,
              (hitLoop ray m rest temp closest hasHit rec).2.parameter ≤ t))) := by
  intro rest
  induction rest with
  | nil =>
    intro temp rec closest hasHit hle hinv
    constructor
    · simp [hitLoop, hitParams]
    · intro htrue
      have hflag : hasHit = true := htrue
      refine ⟨?_, Or.inl ⟨rfl, hflag⟩, ?_⟩
      · exact le_of_eq (hinv hflag)
      · intro t ht
        simp [hitParams] at ht
  | cons s rest' ih =>
    intro temp rec closest hasHit hle hinv
    simp only [hitLoop]
    cases hn : sphereRootIn s ray ⟨m, closest⟩ with
    | some t =>
      rw [sphereHit_some s ray ⟨m, closest⟩ temp t hn]
      rw [if_pos (show ((true, spherePopulate s ray t temp).1 = true) from rfl)]
      dsimp only
      rw [spherePopulate_parameter]
      have hfull := (narrow_iff s ray ha m closest M0 hle t).mp hn
      have hP : hitParams (s :: rest') ray ⟨m, M0⟩ =
          t :: hitParams rest' ray ⟨m, M0⟩ := by
        simp [hitParams, List.filterMap_cons, hfull.1]
      rw [hP]
      have htle : ((t : ℝ) : EReal) ≤ M0 := le_of_lt (lt_of_lt_of_le hfull.2 hle)
      have ihh := ih (spherePopulate s ray t temp) (spherePopulate s ray t temp)
        ((t : ℝ) : EReal) true htle
        (fun _ => by rw [spherePopulate_parameter])
      have hflag := ihh.1.mpr (Or.inl rfl)
      obtain ⟨hle', hmem, hmin⟩ := ihh.2 hflag
      constructor
      · exact ⟨fun _ => Or.inr ⟨t, List.mem_cons_self t _, hfull.2⟩, fun _ => hflag⟩
      · intro _
        refine ⟨hle'.trans (le_of_lt hfull.2), ?_, ?_⟩
        · right
          rcases hmem with ⟨heq, _⟩ | hm
          · rw [heq, spherePopulate_parameter]
            exact List.mem_cons_self t _
          · exact List.mem_cons_of_mem t hm
        · intro u hu
          rcases List.mem_cons.mp hu with rfl | hu'
          · exact EReal.coe_le_coe_iff.mp hle'
          · exact hmin u hu'
    | none =>
      rw [sphereHit_none s ray ⟨m, closest⟩ temp hn]
      rw [if_neg (show ¬ ((false, temp).1 = true) from by simp)]
      dsimp only
      have ihh := ih temp rec closest hasHit hle hinv
      cases hfull : sphereRootIn s ray ⟨m, M0⟩ with
      | none =>
        have hP : hitParams (s :: rest') ray ⟨m, M0⟩ = hitParams rest' ray ⟨m, M0⟩ := by
          simp [hitParams, List.filterMap_cons, hfull]
        rw [hP]
        exact ihh
      | some u =>
        have hnotlt : ¬ ((u : ℝ) : EReal) < closest := by
          intro hlt
          have := (narrow_iff s ray ha m closest M0 hle u).mpr ⟨hfull, hlt⟩
          rw [hn] at this
          exact absurd this (by simp)
        have hP : hitParams (s :: rest') ray ⟨m, M0⟩ =
            u :: hitParams rest' ray ⟨m, M0⟩ := by
          simp [hitParams, List.filterMap_cons, hfull]
        rw [hP]
        constructor
        · rw [ihh.1]
          constructor
          · rintro (hh | ⟨v, hv, hvlt⟩)
            · exact Or.inl hh
            · exact Or.inr ⟨v, List.mem_cons_of_mem u hv, hvlt⟩
          · rintro (hh | ⟨v, hv, hvlt⟩)
            · exact Or.inl hh
            · rcases List.mem_cons.mp hv with rfl | hv'
              · exact absurd hvlt hnotlt
              · exact Or.inr ⟨v, hv', hvlt⟩
        · intro hflag
          obtain ⟨hle', hmem, hmin⟩ := ihh.2 hflag
          refine ⟨hle', ?_, ?_⟩
          · rcases hmem with hl | hm
            · exact Or.inl hl
            · exact Or.inr (List.mem_cons_of_mem u hm)
          · intro v hv
            rcases List.mem_cons.mp hv with rfl | hv'
            · exact EReal.coe_le_coe_iff.mp (hle'.trans (not_lt.mp hnotlt))
            · exact hmin v hv'

theorem traceablesHit_spec (objects : List Sphere) (ray : Ray) (i : Interval)
    (rec : HitRecord) (ha : 0 < sphereA ray) :
    ((traceablesHit objects ray i rec).1 = true ↔
      ∃ s ∈ objects, (sphereRootIn s ray i).isSome = true) ∧
    ((traceablesHit objects ray i rec).1 = true →
      (traceablesHit objects ray i rec).2.parameter ∈ hitParams objects ray i ∧
      ∀ t ∈ hitParams objects ray i, (traceablesHit objects ray i rec).2.parameter ≤ t) := by
  have hspec := hitLoop_spec ray i.min i.max ha objects HitRecord.new rec i.max false
    le_rfl (fun h => absurd h (by simp))
  have hieta : (Interval.mk i.min i.max) = i := rfl
  rw [hieta] at hspec
  have hparam_lt : ∀ t ∈ hitParams objects ray i, (t : EReal) < i.max := by
    intro t ht
    obtain ⟨s, _, heq⟩ := List.mem_filterMap.mp ht
    exact (sphereRootIn_some_surrounds s ray i t heq).2
  constructor
  · rw [show traceablesHit objects ray i rec =
      hitLoop ray i.min objects HitRecord.new i.max false rec from rfl, hspec.1]
    constructor
    · rintro (hff | ⟨t, ht, _⟩)
      · exact absurd hff (by simp)
      · obtain ⟨s, hs, heq⟩ := List.mem_filterMap.mp ht
        exact ⟨s, hs, by rw [heq]; rfl⟩
    · rintro ⟨s, hs, hsome⟩
      obtain ⟨t, heq⟩ := Option.isSome_iff_exists.mp hsome
      have ht : t ∈ hitParams objects ray i := List.mem_filterMap.mpr ⟨s, hs, heq⟩
      exact Or.inr ⟨t, ht, hparam_lt t ht⟩
  · intro hflag
    have hflag' : (hitLoop ray i.min objects HitRecord.new i.max false rec).1 = true := hflag
    obtain ⟨_, hmem, hmin⟩ := hspec.2 hflag'
    rcases hmem with ⟨_, hff⟩ | hm
    · exact absurd hff (by simp)
    · exact ⟨hm, hmin⟩

/-- Claim C2, amended: `Traceables::hit` returns `true` iff at least one
member reports a hit on the full interval; the output record then holds a
hit with the minimum valid parameter among all members, and the returned
flag and parameter are the same for every permutation of the member list.
(The iteration tests each member against `[interval.min, closest]` with
`closest` initialised to `interval.max` and narrowed to each accepted hit's
parameter.)  The FULL output record is not permutation-invariant: when two
members tie at the minimal parameter, the earlier member in iteration order
wins, so e.g. the attached material can depend on the order (see the
counterexample).  Stated for rays with a non-zero direction. -/
theorem aggregate_hit_nearest (objects : List Sphere) (ray : Ray) (i : Interval)
    (rec : HitRecord) (hdir : ray.direction ≠ Vec3.zero) :
    ((traceablesHit objects ray i rec).1 = true ↔
      ∃ s ∈ objects, (sphereRootIn s ray i).isSome = true) ∧
    ((traceablesHit objects ray i rec).1 = true →
      (traceablesHit objects ray i rec).2.parameter ∈ hitParams objects ray i ∧
      ∀ t ∈ hitParams objects ray i,
        (traceablesHit objects ray i rec).2.parameter ≤ t) ∧
    (∀ (objects' : List Sphere) (rec' : HitRecord), objects.Perm objects' →
      (traceablesHit objects ray i rec).1 = (traceablesHit objects' ray i rec').1 ∧
      ((traceablesHit objects ray i rec).1 = true →
        (traceablesHit objects ray i rec).2.parameter =
          (traceablesHit objects' ray i rec').2.parameter)) := by
  have ha : 0 < sphereA ray := Vec3.magnitude_pos ray.direction hdir
  refine ⟨(traceablesHit_spec objects ray i rec ha).1,
    (traceablesHit_spec objects ray i rec ha).2, ?_⟩
  intro objects' rec' hperm
  have h1 := traceablesHit_spec objects ray i rec ha
  have h2 := traceablesHit_spec objects' ray i rec' ha
  have hflag : (traceablesHit objects ray i rec).1 = (traceablesHit objects' ray i rec').1 := by
    by_cases hf : (traceablesHit objects ray i rec).1 = true
    · have : ∃ s ∈ objects', (sphereRootIn s ray i).isSome = true := by
        obtain ⟨s, hs, hsome⟩ := h1.1.mp hf
        exact ⟨s, hperm.mem_iff.mp hs, hsome⟩
      rw [hf, h2.1.mpr this]
    · have hf2 : ¬ (traceablesHit objects' ray i rec').1 = true := by
        intro hf2'
        apply hf
        obtain ⟨s, hs, hsome⟩ := h2.1.mp hf2'
        exact h1.1.mpr ⟨s, hperm.mem_iff.mpr hs, hsome⟩
      simp only [Bool.not_eq_true] at hf hf2
      rw [hf, hf2]
  refine ⟨hflag, ?_⟩
  intro hf
  have hf2 : (traceablesHit objects' ray i rec').1 = true := by rw [← hflag]; exact hf
  obtain ⟨hm1, hmin1⟩ := h1.2 hf
  obtain ⟨hm2, hmin2⟩ := h2.2 hf2
  have hpp : (hitParams objects ray i).Perm (hitParams objects' ray i) :=
    hperm.filterMap _
  exact le_antisymm (hmin1 _ (hpp.mem_iff.mpr hm2)) (hmin2 _ (hpp.mem_iff.mp hm1))

/-- Claim C2 witness: the theorem applied to the one-member scene containing
the unit sphere at `(0,0,−2)` and the axis ray on the interval `(0, 100)`:
the aggregate reports a hit whose parameter is minimal among the member
reports, and the trivial permutation preserves flag and parameter. -/
theorem aggregate_hit_nearest_witness :
    (Ray.mk Vec3.zero ⟨0, 0, -1⟩ 0).direction ≠ Vec3.zero ∧
    (traceablesHit [⟨⟨0, 0, -2⟩, 1, .lambertian Vec3.zero, false, Vec3.zero⟩]
      ⟨Vec3.zero, ⟨0, 0, -1⟩, 0⟩ ⟨((0 : ℝ) : EReal), ((100 : ℝ) : EReal)⟩
      HitRecord.new).1 = true ∧
    ((traceablesHit [⟨⟨0, 0, -2⟩, 1, .lambertian Vec3.zero, false, Vec3.zero⟩]
        ⟨Vec3.zero, ⟨0, 0, -1⟩, 0⟩ ⟨((0 : ℝ) : EReal), ((100 : ℝ) : EReal)⟩
        HitRecord.new).2.parameter ∈
      hitParams [⟨⟨0, 0, -2⟩, 1, .lambertian Vec3.zero, false, Vec3.zero⟩]
        ⟨Vec3.zero, ⟨0, 0, -1⟩, 0⟩ ⟨((0 : ℝ) : EReal), ((100 : ℝ) : EReal)⟩ ∧
      ∀ t ∈ hitParams [⟨⟨0, 0, -2⟩, 1, .lambertian Vec3.zero, false, Vec3.zero⟩]
        ⟨Vec3.zero, ⟨0, 0, -1⟩, 0⟩ ⟨((0 : ℝ) : EReal), ((100 : ℝ) : EReal)⟩,
        (traceablesHit [⟨⟨0, 0, -2⟩, 1, .lambertian Vec3.zero, false, Vec3.zero⟩]
          ⟨Vec3.zero, ⟨0, 0, -1⟩, 0⟩ ⟨((0 : ℝ) : EReal), ((100 : ℝ) : EReal)⟩
          HitRecord.new).2.parameter ≤ t) ∧
    ([⟨⟨0, 0, -2⟩, 1, .lambertian Vec3.zero, false, Vec3.zero⟩] :
        List Sphere).Perm [⟨⟨0, 0, -2⟩, 1, .lambertian Vec3.zero, false, Vec3.zero⟩] := by
  have hdir : (Ray.mk Vec3.zero ⟨0, 0, -1⟩ 0).direction ≠ Vec3.zero := by
    simp [Vec3.zero, Vec3.mk.injEq]
  have hdisc : sphereDisc ⟨⟨0, 0, -2⟩, 1, .lambertian Vec3.zero, false, Vec3.zero⟩
      ⟨Vec3.zero, ⟨0, 0, -1⟩, 0⟩ = 1 := by
    simp only [sphereDisc, sphereA, sphereHalfB, sphereC, hitCenter, Sphere.centerAt,
      Vec3.magnitude, dot, Vec3.zero, Vec3.sub_x, Vec3.sub_y, Vec3.sub_z]
    norm_num
  have hhb : sphereHalfB ⟨⟨0, 0, -2⟩, 1, .lambertian Vec3.zero, false, Vec3.zero⟩
      ⟨Vec3.zero, ⟨0, 0, -1⟩, 0⟩ = -2 := by
    simp only [sphereHalfB, hitCenter, Sphere.centerAt, dot, Vec3.zero, Vec3.sub_x,
      Vec3.sub_y, Vec3.sub_z]
    norm_num
  have ha : sphereA ⟨Vec3.zero, ⟨0, 0, -1⟩, 0⟩ = 1 := by
    simp only [sphereA, Vec3.magnitude]
    norm_num
  have hroot1 : sphereRoot1 ⟨⟨0, 0, -2⟩, 1, .lambertian Vec3.zero, false, Vec3.zero⟩
      ⟨Vec3.zero, ⟨0, 0, -1⟩, 0⟩ = 1 := by
    rw [sphereRoot1, hdisc, hhb, ha]
    norm_num
  have hrt : sphereRootIn ⟨⟨0, 0, -2⟩, 1, .lambertian Vec3.zero, false, Vec3.zero⟩
      ⟨Vec3.zero, ⟨0, 0, -1⟩, 0⟩ ⟨((0 : ℝ) : EReal), ((100 : ℝ) : EReal)⟩ = some 1 := by
    rw [sphereRootIn, if_neg (by rw [hdisc]; norm_num),
      if_pos (by rw [hroot1, surrounds_coe_coe]; norm_num), hroot1]
  have hhit := sphereHit_some ⟨⟨0, 0, -2⟩, 1, .lambertian Vec3.zero, false, Vec3.zero⟩
    ⟨Vec3.zero, ⟨0, 0, -1⟩, 0⟩ ⟨((0 : ℝ) : EReal), ((100 : ℝ) : EReal)⟩ HitRecord.new 1 hrt
  have hflag : (traceablesHit [⟨⟨0, 0, -2⟩, 1, .lambertian Vec3.zero, false, Vec3.zero⟩]
      ⟨Vec3.zero, ⟨0, 0, -1⟩, 0⟩ ⟨((0 : ℝ) : EReal), ((100 : ℝ) : EReal)⟩
      HitRecord.new).1 = true := by
    show (hitLoop _ _ _ _ _ _ _).1 = true
    dsimp only
    simp only [hitLoop, hhit]
    rfl
  have happ := aggregate_hit_nearest
    [⟨⟨0, 0, -2⟩, 1, .lambertian Vec3.zero, false, Vec3.zero⟩]
    ⟨Vec3.zero, ⟨0, 0, -1⟩, 0⟩ ⟨((0 : ℝ) : EReal), ((100 : ℝ) : EReal)⟩ HitRecord.new hdir
  exact ⟨hdir, hflag, happ.2.1 hflag, List.Perm.refl _⟩

/-- Claim C2 counterexample: two spheres — a metal one and a Lambertian one
— both first hit by the axis ray at the same parameter 1.  The aggregate
returns the record of whichever sphere comes first in the member list
(the later tie is rejected by the strict narrowing test), so the two
permutations of the list yield different output records (different attached
materials), refuting "the returned result is the same for every permutation
of the member list". -/
theorem aggregate_hit_order_dependent :
    ([⟨⟨0, 0, -2⟩, 1, .metal ⟨0.8, 0.8, 0.8⟩ 0, false, Vec3.zero⟩,
       ⟨⟨0, 0, -3⟩, 2, .lambertian ⟨0.1, 0.2, 0.3⟩, false, Vec3.zero⟩] :
      List Sphere).Perm
      [⟨⟨0, 0, -3⟩, 2, .lambertian ⟨0.1, 0.2, 0.3⟩, false, Vec3.zero⟩,
       ⟨⟨0, 0, -2⟩, 1, .metal ⟨0.8, 0.8, 0.8⟩ 0, false, Vec3.zero⟩] ∧
    (traceablesHit [⟨⟨0, 0, -2⟩, 1, .metal ⟨0.8, 0.8, 0.8⟩ 0, false, Vec3.zero⟩,
        ⟨⟨0, 0, -3⟩, 2, .lambertian ⟨0.1, 0.2, 0.3⟩, false, Vec3.zero⟩]
      ⟨Vec3.zero, ⟨0, 0, -1⟩, 0⟩ ⟨((0 : ℝ) : EReal), ((100 : ℝ) : EReal)⟩
      HitRecord.new).2.material = .metal ⟨0.8, 0.8, 0.8⟩ 0 ∧
    (traceablesHit [⟨⟨0, 0, -3⟩, 2, .lambertian ⟨0.1, 0.2, 0.3⟩, false, Vec3.zero⟩,
        ⟨⟨0, 0, -2⟩, 1, .metal ⟨0.8, 0.8, 0.8⟩ 0, false, Vec3.zero⟩]
      ⟨Vec3.zero, ⟨0, 0, -1⟩, 0⟩ ⟨((0 : ℝ) : EReal), ((100 : ℝ) : EReal)⟩
      HitRecord.new).2.material = .lambertian ⟨0.1, 0.2, 0.3⟩ ∧
    (traceablesHit [⟨⟨0, 0, -2⟩, 1, .metal ⟨0.8, 0.8, 0.8⟩ 0, false, Vec3.zero⟩,
        ⟨⟨0, 0, -3⟩, 2, .lambertian ⟨0.1, 0.2, 0.3⟩, false, Vec3.zero⟩]
      ⟨Vec3.zero, ⟨0, 0, -1⟩, 0⟩ ⟨((0 : ℝ) : EReal), ((100 : ℝ) : EReal)⟩
      HitRecord.new).2 ≠
    (traceablesHit [⟨⟨0, 0, -3⟩, 2, .lambertian ⟨0.1, 0.2, 0.3⟩, false, Vec3.zero⟩,
        ⟨⟨0, 0, -2⟩, 1, .metal ⟨0.8, 0.8, 0.8⟩ 0, false, Vec3.zero⟩]
      ⟨Vec3.zero, ⟨0, 0, -1⟩, 0⟩ ⟨((0 : ℝ) : EReal), ((100 : ℝ) : EReal)⟩
      HitRecord.new).2 := by
  have hdiscA : sphereDisc ⟨⟨0, 0, -2⟩, 1, .metal ⟨0.8, 0.8, 0.8⟩ 0, false, Vec3.zero⟩
      ⟨Vec3.zero, ⟨0, 0, -1⟩, 0⟩ = 1 := by
    simp only [sphereDisc, sphereA, sphereHalfB, sphereC, hitCenter, Sphere.centerAt,
      Vec3.magnitude, dot, Vec3.zero, Vec3.sub_x, Vec3.sub_y, Vec3.sub_z]
    norm_num
  have hhbA : sphereHalfB ⟨⟨0, 0, -2⟩, 1, .metal ⟨0.8, 0.8, 0.8⟩ 0, false, Vec3.zero⟩
      ⟨Vec3.zero, ⟨0, 0, -1⟩, 0⟩ = -2 := by
    simp only [sphereHalfB, hitCenter, Sphere.centerAt, dot, Vec3.zero, Vec3.sub_x,
      Vec3.sub_y, Vec3.sub_z]
    norm_num
  have haA : sphereA ⟨Vec3.zero, ⟨0, 0, -1⟩, 0⟩ = 1 := by
    simp only [sphereA, Vec3.magnitude]
    norm_num
  have hroot1A : sphereRoot1 ⟨⟨0, 0, -2⟩, 1, .metal ⟨0.8, 0.8, 0.8⟩ 0, false, Vec3.zero⟩
      ⟨Vec3.zero, ⟨0, 0, -1⟩, 0⟩ = 1 := by
    rw [sphereRoot1, hdiscA, hhbA, haA]
    norm_num
  have hroot2A : sphereRoot2 ⟨⟨0, 0, -2⟩, 1, .metal ⟨0.8, 0.8, 0.8⟩ 0, false, Vec3.zero⟩
      ⟨Vec3.zero, ⟨0, 0, -1⟩, 0⟩ = 3 := by
    rw [sphereRoot2, hdiscA, hhbA, haA]
    norm_num
  have hdiscB : sphereDisc ⟨⟨0, 0, -3⟩, 2, .lambertian ⟨0.1, 0.2, 0.3⟩, false, Vec3.zero⟩
      ⟨Vec3.zero, ⟨0, 0, -1⟩, 0⟩ = 4 := by
    simp only [sphereDisc, sphereA, sphereHalfB, sphereC, hitCenter, Sphere.centerAt,
      Vec3.magnitude, dot, Vec3.zero, Vec3.sub_x, Vec3.sub_y, Vec3.sub_z]
    norm_num
  have hhbB : sphereHalfB ⟨⟨0, 0, -3⟩, 2, .lambertian ⟨0.1, 0.2, 0.3⟩, false, Vec3.zero⟩
      ⟨Vec3.zero, ⟨0, 0, -1⟩, 0⟩ = -3 := by
    simp only [sphereHalfB, hitCenter, Sphere.centerAt, dot, Vec3.zero, Vec3.sub_x,
      Vec3.sub_y, Vec3.sub_z]
    norm_num
  have hsqrt4 : Real.sqrt 4 = 2 := by
    rw [show (4 : ℝ) = 2 * 2 by norm_num]
    exact Real.sqrt_mul_self (by norm_num)
  have hroot1B : sphereRoot1 ⟨⟨0, 0, -3⟩, 2, .lambertian ⟨0.1, 0.2, 0.3⟩, false, Vec3.zero⟩
      ⟨Vec3.zero, ⟨0, 0, -1⟩, 0⟩ = 1 := by
    rw [sphereRoot1, hdiscB, hhbB, haA, hsqrt4]
    norm_num
  have hroot2B : sphereRoot2 ⟨⟨0, 0, -3⟩, 2, .lambertian ⟨0.1, 0.2, 0.3⟩, false, Vec3.zero⟩
      ⟨Vec3.zero, ⟨0, 0, -1⟩, 0⟩ = 5 := by
    rw [sphereRoot2, hdiscB, hhbB, haA, hsqrt4]
    norm_num
  have hrtAfull : sphereRootIn ⟨⟨0, 0, -2⟩, 1, .metal ⟨0.8, 0.8, 0.8⟩ 0, false, Vec3.zero⟩
      ⟨Vec3.zero, ⟨0, 0, -1⟩, 0⟩ ⟨((0 : ℝ) : EReal), ((100 : ℝ) : EReal)⟩ = some 1 := by
    rw [sphereRootIn, if_neg (by rw [hdiscA]; norm_num),
      if_pos (by rw [hroot1A, surrounds_coe_coe]; norm_num), hroot1A]
  have hrtBfull : sphereRootIn ⟨⟨0, 0, -3⟩, 2, .lambertian ⟨0.1, 0.2, 0.3⟩, false, Vec3.zero⟩
      ⟨Vec3.zero, ⟨0, 0, -1⟩, 0⟩ ⟨((0 : ℝ) : EReal), ((100 : ℝ) : EReal)⟩ = some 1 := by
    rw [sphereRootIn, if_neg (by rw [hdiscB]; norm_num),
      if_pos (by rw [hroot1B, surrounds_coe_coe]; norm_num), hroot1B]
  have hrtAn : sphereRootIn ⟨⟨0, 0, -2⟩, 1, .metal ⟨0.8, 0.8, 0.8⟩ 0, false, Vec3.zero⟩
      ⟨Vec3.zero, ⟨0, 0, -1⟩, 0⟩ ⟨((0 : ℝ) : EReal), ((1 : ℝ) : EReal)⟩ = none := by
    rw [sphereRootIn, if_neg (by rw [hdiscA]; norm_num),
      if_neg (by rw [hroot1A, surrounds_coe_coe]; norm_num),
      if_neg (by rw [hroot2A, surrounds_coe_coe]; norm_num)]
  have hrtBn : sphereRootIn ⟨⟨0, 0, -3⟩, 2, .lambertian ⟨0.1, 0.2, 0.3⟩, false, Vec3.zero⟩
      ⟨Vec3.zero, ⟨0, 0, -1⟩, 0⟩ ⟨((0 : ℝ) : EReal), ((1 : ℝ) : EReal)⟩ = none := by
    rw [sphereRootIn, if_neg (by rw [hdiscB]; norm_num),
      if_neg (by rw [hroot1B, surrounds_coe_coe]; norm_num),
      if_neg (by rw [hroot2B, surrounds_coe_coe]; norm_num)]
  have htrAB : (traceablesHit
      [⟨⟨0, 0, -2⟩, 1, .metal ⟨0.8, 0.8, 0.8⟩ 0, false, Vec3.zero⟩,
       ⟨⟨0, 0, -3⟩, 2, .lambertian ⟨0.1, 0.2, 0.3⟩, false, Vec3.zero⟩]
      ⟨Vec3.zero, ⟨0, 0, -1⟩, 0⟩ ⟨((0 : ℝ) : EReal), ((100 : ℝ) : EReal)⟩
      HitRecord.new) =
      (true, spherePopulate ⟨⟨0, 0, -2⟩, 1, .metal ⟨0.8, 0.8, 0.8⟩ 0, false, Vec3.zero⟩
        ⟨Vec3.zero, ⟨0, 0, -1⟩, 0⟩ 1 HitRecord.new) := by
    show hitLoop _ _ _ _ _ _ _ = _
    dsimp only
    simp only [hitLoop]
    rw [sphereHit_some _ _ _ _ 1 hrtAfull]
    rw [if_pos (show ((true, spherePopulate _ _ 1 HitRecord.new).1 = true) from rfl)]
    dsimp only
    rw [spherePopulate_parameter]
    rw [sphereHit_none _ _ _ _ hrtBn]
    rw [if_neg (show ¬ ((false,
      spherePopulate ⟨⟨0, 0, -2⟩, 1, .metal ⟨0.8, 0.8, 0.8⟩ 0, false, Vec3.zero⟩
        ⟨Vec3.zero, ⟨0, 0, -1⟩, 0⟩ 1 HitRecord.new).1 = true) from by simp)]
  have htrBA : (traceablesHit
      [⟨⟨0, 0, -3⟩, 2, .lambertian ⟨0.1, 0.2, 0.3⟩, false, Vec3.zero⟩,
       ⟨⟨0, 0, -2⟩, 1, .metal ⟨0.8, 0.8, 0.8⟩ 0, false, Vec3.zero⟩]
      ⟨Vec3.zero, ⟨0, 0, -1⟩, 0⟩ ⟨((0 : ℝ) : EReal), ((100 : ℝ) : EReal)⟩
      HitRecord.new) =
      (true, spherePopulate ⟨⟨0, 0, -3⟩, 2, .lambertian ⟨0.1, 0.2, 0.3⟩, false, Vec3.zero⟩
        ⟨Vec3.zero, ⟨0, 0, -1⟩, 0⟩ 1 HitRecord.new) := by
    show hitLoop _ _ _ _ _ _ _ = _
    dsimp only
    simp only [hitLoop]
    rw [sphereHit_some _ _ _ _ 1 hrtBfull]
    rw [if_pos (show ((true, spherePopulate _ _ 1 HitRecord.new).1 = true) from rfl)]
    dsimp only
    rw [spherePopulate_parameter]
    rw [sphereHit_none _ _ _ _ hrtAn]
    rw [if_neg (show ¬ ((false,
      spherePopulate ⟨⟨0, 0, -3⟩, 2, .lambertian ⟨0.1, 0.2, 0.3⟩, false, Vec3.zero⟩
        ⟨Vec3.zero, ⟨0, 0, -1⟩, 0⟩ 1 HitRecord.new).1 = true) from by simp)]
  have hmAB : (traceablesHit
      [⟨⟨0, 0, -2⟩, 1, .metal ⟨0.8, 0.8, 0.8⟩ 0, false, Vec3.zero⟩,
       ⟨⟨0, 0, -3⟩, 2, .lambertian ⟨0.1, 0.2, 0.3⟩, false, Vec3.zero⟩]
      ⟨Vec3.zero, ⟨0, 0, -1⟩, 0⟩ ⟨((0 : ℝ) : EReal), ((100 : ℝ) : EReal)⟩
      HitRecord.new).2.material = .metal ⟨0.8, 0.8, 0.8⟩ 0 := by
    rw [htrAB, spherePopulate_material]
  have hmBA : (traceablesHit
      [⟨⟨0, 0, -3⟩, 2, .lambertian ⟨0.1, 0.2, 0.3⟩, false, Vec3.zero⟩,
       ⟨⟨0, 0, -2⟩, 1, .metal ⟨0.8, 0.8, 0.8⟩ 0, false, Vec3.zero⟩]
      ⟨Vec3.zero, ⟨0, 0, -1⟩, 0⟩ ⟨((0 : ℝ) : EReal), ((100 : ℝ) : EReal)⟩
      HitRecord.new).2.material = .lambertian ⟨0.1, 0.2, 0.3⟩ := by
    rw [htrBA, spherePopulate_material]
  refine ⟨List.Perm.swap _ _ _, hmAB, hmBA, ?_⟩
  intro heq
  have hmat := congrArg HitRecord.material heq
  rw [hmAB, hmBA] at hmat
  simp at hmat

end

end RayTracer
